import Mathlib

/-!
Shallow embedding of the meal-suggestion core of boilergains (src/protein.py).

Conventions of the embedding:
* Python floats are modelled as rationals (ℚ); all arithmetic is exact.
* Python strings are Lean Strings; lowercasing, trimming, splitting and the
  substring test are modelled character-wise on the underlying char list.
* The food catalog (a Python dict keyed by name, insertion ordered) is a
  List Food; dict lookup is the first list entry with the given name.
* The pairing table (PAIRS, loaded from pairings.json with a built-in
  fallback) is passed as an explicit parameter, as is the fuzzy-match
  acceptance predicate close, which abstracts
  difflib.get_close_matches(companion, words, n=1, cutoff=0.8) being
  non-empty for a given companion/word pair (spec section 9 treats the
  similarity routine as a pluggable capability).
* suggest_meal returns Option (Sol × List Sol): the best solution and the
  alternatives the Python code attaches to it (None becomes none).
-/

namespace ProteinPy

/-- Python str.lower(): lowercase every character. -/
def pyLower (s : String) : String := ⟨s.data.map Char.toLower⟩

/-- Bool test: the first list is an initial segment of the second. -/
def listLeads : List Char → List Char → Bool
  | [], _ => true
  | _ :: _, [] => false
  | a :: as, b :: bs => a == b && listLeads as bs

/-- Bool test: the first list occurs contiguously inside the second
(Python substring containment, the binary in operator on str). -/
def listWithin : List Char → List Char → Bool
  | a, [] => a.isEmpty
  | a, b :: bs => listLeads a (b :: bs) || listWithin a bs

/-- Python a in b on strings. -/
def pySub (a b : String) : Bool := listWithin a.data b.data

def pyIsWs (c : Char) : Bool := c.isWhitespace

/-- Python str.strip(). -/
def pyTrim (s : String) : String :=
  ⟨((s.data.dropWhile pyIsWs).reverse.dropWhile pyIsWs).reverse⟩

/-- Split a char list at whitespace; pieces may be empty. -/
def splitWsGo (acc : List Char) : List Char → List (List Char)
  | [] => [acc.reverse]
  | c :: rest => if pyIsWs c then acc.reverse :: splitWsGo [] rest
                 else splitWsGo (c :: acc) rest

/-- Python it.replace('-', ' ').split(): whitespace tokens of a string with
hyphens treated as separators (protein.py line 258). -/
def pyTokens (s : String) : List String :=
  ((splitWsGo [] (s.data.map fun c => if c = '-' then ' ' else c)).filter
    (fun w => !w.isEmpty)).map (fun w => ⟨w⟩)

/-- One row of the normalized food catalog (protein.py loader output:
name -> calories, protein, carbs, fat, fiber, vegan, allergens). -/
structure Food where
  name : String
  calories : ℚ
  protein : ℚ
  carbs : ℚ
  fat : ℚ
  fiber : ℚ
  vegan : Bool
  allergens : String
deriving DecidableEq, Repr

instance : Inhabited Food := ⟨⟨"", 0, 0, 0, 0, 0, false, ""⟩⟩

/-- protein.py lines 9-20: EXCLUSION_TOKEN_MAP. -/
def EXCLUSION_TOKEN_MAP : List (String × List String) :=
  [("beef", ["beef", "meat", "hamburger", "burger", "sausage", "pepperoni", "peperoni"]),
   ("pork", ["pork", "ham"]),
   ("chicken", ["chicken"]),
   ("turkey", ["turkey"]),
   ("lamb", ["lamb"]),
   ("fish", ["fish"]),
   ("seafood", ["seafood"]),
   ("shellfish", ["shellfish", "shrimp", "crab", "lobster", "clam", "oyster", "scallop"]),
   ("milk", ["milk", "dairy", "cheese", "cream", "butter", "yogurt"]),
   ("egg", ["egg", "eggs"])]

/-- De-duplicate keeping the first occurrence of each token
(protein.py lines 35-42). -/
def dedupFirstGo (seen : List String) : List String → List String
  | [] => []
  | t :: rest => if t ∈ seen then dedupFirstGo seen rest
                 else t :: dedupFirstGo (t :: seen) rest

/-- protein.py lines 21-43: expand_excluded_items. -/
def expand_excluded_items (selected : List String) : List String :=
  let tokens := selected.flatMap fun item =>
    let key := pyLower (pyTrim item)
    if key = "" then []
    else
      match EXCLUSION_TOKEN_MAP.find? (fun p => p.1 == key) with
      | some p => if p.2.isEmpty then [key] else p.2
      | none => [key]
  dedupFirstGo [] tokens

/-- protein.py line 167: allergen = (allergen or '').strip().lower() if allergen else ''. -/
def normAllergen : Option String → String
  | none => ""
  | some s => if s = "" then "" else pyLower (pyTrim s)

/-- protein.py lines 161-189: _filter_candidates. -/
def _filter_candidates (foods : List Food) (vegan : Bool) (allergen : Option String)
    (excluded_meats : List String) : List Food :=
  let alg := normAllergen allergen
  let ex := excluded_meats.map pyLower
  foods.filter fun f =>
    let lname := pyLower f.name
    if vegan && !f.vegan then false
    else if alg ≠ "" && pySub alg (pyLower f.allergens) then false
    else if ex.any (fun m => pySub m lname || pySub m (pyLower f.allergens)) then false
    else true

/-- protein.py lines 229-248: built-in fallback pairing map used when
pairings.json is missing or invalid. -/
def PAIRS_default : List (String × List String) :=
  [("hamburger", ["bun", "bread", "roll", "fries"]),
   ("burger", ["bun", "bread", "roll", "fries"]),
   ("hot dog", ["bun", "ketchup", "mustard"]),
   ("taco", ["shell", "tortilla", "salsa"]),
   ("chicken", ["rice", "salad", "wrap", "bread"]),
   ("steak", ["potato", "rice", "salad"]),
   ("yogurt", ["granola", "berries", "fruit"]),
   ("granola", ["yogurt", "milk", "berries"]),
   ("oatmeal", ["milk", "berries", "banana"]),
   ("pancake", ["syrup", "butter"]),
   ("eggs", ["toast", "bacon", "sausage"]),
   ("bacon", ["eggs", "toast"]),
   ("salad", ["dressing", "bread", "chicken", "tofu"]),
   ("rice", ["chicken", "beans", "tofu"]),
   ("beans", ["rice", "tortilla"]),
   ("pizza", ["bread", "cheese"]),
   ("sushi", ["soy", "wasabi", "ginger"]),
   ("bagel", ["cream cheese", "lox", "butter"])]

/-- protein.py lines 251-262: companion_present. The close predicate
abstracts the difflib fuzzy acceptance (ratio at least 0.8) between the
companion token and one whitespace/hyphen token of an item name. -/
def companion_present (close : String → String → Bool) (lower_combo : List String)
    (companion : String) : Bool :=
  lower_combo.any (fun item => pySub companion item) ||
  (lower_combo.flatMap pyTokens).any (fun w => close companion w)

/-- protein.py lines 264-286: pairs_ok. For every lead key of the pairing
table that occurs inside some lowercased combo name, require a companion or
fall back to a calorically substantial (at least 400 kcal) lead item, looked
up in the catalog by case-insensitive name equality. -/
def pairs_ok (foods : List Food) (PAIRS : List (String × List String))
    (close : String → String → Bool) (combo : List String) : Bool :=
  let lower := combo.map pyLower
  PAIRS.all fun kv =>
    if lower.any (fun item => pySub kv.1 item) then
      kv.2.any (fun companion => companion_present close lower companion) ||
      lower.any (fun item =>
        pySub kv.1 item &&
        match foods.find? (fun n => pyLower n.name == item) with
        | some canonical => decide (400 ≤ canonical.calories)
        | none => false)
    else true

/-- protein.py lines 298-303: max_servings_for_item. Items above 20 g
protein per serving are capped at one serving. -/
def max_servings_for_item (max_servings : ℚ) (info : Food) : ℕ :=
  let base : ℚ := if 20 < info.protein then min max_servings 1 else max_servings
  let max_units : ℤ := Rat.floor (base + 1 / 1000000000)
  (max 1 max_units).toNat

/-- protein.py lines 305-307: serving_values_for_item, the float range
[1.0 .. max_serv]. -/
def serving_values_for_item (max_servings : ℚ) (info : Food) : List ℚ :=
  List.map (Nat.cast : ℕ → ℚ) (List.range' 1 (max_servings_for_item max_servings info))

/-- Python round() on an exact rational: nearest integer, ties to even. -/
def pyRound (x : ℚ) : ℤ :=
  let f := Rat.floor x
  let r := x - f
  if r < 1 / 2 then f
  else if 1 / 2 < r then f + 1
  else if f % 2 = 0 then f else f + 1

/-- One candidate solution record (the sol dict of protein.py lines 363-373,
without the alternatives key, which only the final best receives). -/
structure Sol where
  items : List (String × ℚ)
  total_calories : ℚ
  total_protein : ℚ
  total_fat : ℚ
  total_carbs : ℚ
  total_fiber : ℚ
  tolerance_used : ℚ
  score : ℚ
  within_tolerance : Bool
deriving DecidableEq, Repr

/-- Python foods[name] / foods.get(name): first catalog entry with that
name (dict keys are unique, so first = only). -/
def lookupFood (foods : List Food) (nm : String) : Food :=
  (foods.find? (fun f => f.name == nm)).getD default

/-- protein.py lines 337-373: build the sol record for one servings
assignment of one combo at tolerance tol. qty = float(int(round(s))). -/
def mkSolution (foods : List Food) (calorie_goal protein_goal tol : ℚ)
    (combo : List String) (servings : List ℚ) : Sol :=
  let pairsL := combo.zip servings
  let items := pairsL.map fun p => (p.1, ((pyRound p.2 : ℤ) : ℚ))
  let total_cal := (pairsL.map fun p => (lookupFood foods p.1).calories * ((pyRound p.2 : ℤ) : ℚ)).sum
  let total_pro := (pairsL.map fun p => (lookupFood foods p.1).protein * ((pyRound p.2 : ℤ) : ℚ)).sum
  let total_fat := (pairsL.map fun p => (lookupFood foods p.1).fat * ((pyRound p.2 : ℤ) : ℚ)).sum
  let total_carbs := (pairsL.map fun p => (lookupFood foods p.1).carbs * ((pyRound p.2 : ℤ) : ℚ)).sum
  let total_fiber := (pairsL.map fun p => (lookupFood foods p.1).fiber * ((pyRound p.2 : ℤ) : ℚ)).sum
  let cal_diff := |total_cal - calorie_goal| / (if calorie_goal = 0 then 1 else calorie_goal)
  let pro_diff := |total_pro - protein_goal| / (if protein_goal = 0 then 1 else protein_goal)
  let within := decide (calorie_goal * (1 - tol) ≤ total_cal ∧ total_cal ≤ calorie_goal * (1 + tol) ∧
    protein_goal * (1 - tol) ≤ total_pro ∧ total_pro ≤ protein_goal * (1 + tol))
  { items := items
    total_calories := total_cal
    total_protein := total_pro
    total_fat := total_fat
    total_carbs := total_carbs
    total_fiber := total_fiber
    tolerance_used := tol
    score := cal_diff + pro_diff
    within_tolerance := within }

/-- itertools.combinations: all size-r sublists in input order. -/
def combinations : ℕ → List α → List (List α)
  | 0, _ => [[]]
  | _ + 1, [] => []
  | r + 1, x :: xs => ((combinations r xs).map (x :: ·)) ++ combinations (r + 1) xs

/-- itertools.product over a list of ranges (rightmost varies fastest). -/
def listProd : List (List α) → List (List α)
  | [] => [[]]
  | xs :: rest => xs.flatMap (fun x => (listProd rest).map (x :: ·))

/-- protein.py lines 321-381: all sol records generated at a single
tolerance tier, in enumeration order (combos of 1..max_items ranked names,
then serving assignments; combos failing pairs_ok produce nothing). -/
def tierSols (foods : List Food) (PAIRS : List (String × List String))
    (close : String → String → Bool) (calorie_goal protein_goal : ℚ)
    (max_items : ℕ) (max_servings : ℚ) (names : List String) (tol : ℚ) : List Sol :=
  (List.range' 1 (min max_items names.length)).flatMap fun r =>
    (combinations r names).flatMap fun combo =>
      let ranges := combo.map fun nm => serving_values_for_item max_servings (lookupFood foods nm)
      if ranges.any List.isEmpty then []
      else (listProd ranges).filterMap fun servings =>
        if pairs_ok foods PAIRS close combo then
          some (mkSolution foods calorie_goal protein_goal tol combo servings)
        else none

/-- protein.py lines 314-383: the tolerance relaxation loop. Returns the
accumulated (solutions, all_candidates) pools; the loop stops after the
first tier contributing at least one within-tolerance solution. -/
def runTiers (foods : List Food) (PAIRS : List (String × List String))
    (close : String → String → Bool) (calorie_goal protein_goal : ℚ)
    (max_items : ℕ) (max_servings : ℚ) (names : List String) :
    List ℚ → List Sol × List Sol
  | [] => ([], [])
  | tol :: rest =>
    let all := tierSols foods PAIRS close calorie_goal protein_goal max_items max_servings names tol
    let sols := all.filter (fun s => s.within_tolerance)
    if sols.isEmpty then
      (sols ++ (runTiers foods PAIRS close calorie_goal protein_goal max_items max_servings names rest).1,
       all ++ (runTiers foods PAIRS close calorie_goal protein_goal max_items max_servings names rest).2)
    else (sols, all)

/-- protein.py lines 309-312: _solution_signature (sorted tuple of the item
names; quantities are ignored). -/
def _solution_signature (s : Sol) : List String :=
  List.insertionSort (fun a b => a ≤ b) (s.items.map Prod.fst)

/-- One step of the best_by_sig dict update of _dedupe (protein.py lines
386-391): dict insertion order is first-occurrence order of a signature and
a later entry replaces an earlier one only on strictly smaller score. -/
def updateSig : List (List String × Sol) → Sol → List (List String × Sol)
  | [], e => [(_solution_signature e, e)]
  | kv :: rest, e =>
    if kv.1 = _solution_signature e then
      (if e.score < kv.2.score then (kv.1, e) :: rest else kv :: rest)
    else kv :: updateSig rest e

/-- protein.py lines 385-392: _dedupe. -/
def _dedupe (entries : List Sol) : List Sol :=
  (entries.foldl updateSig []).map Prod.snd

/-- Python sorted(key=score): stable ascending sort by score. -/
def sortScore (l : List Sol) : List Sol :=
  List.insertionSort (fun a b => a.score ≤ b.score) l

instance : IsTotal Sol (fun a b => a.score ≤ b.score) :=
  ⟨fun a b => le_total a.score b.score⟩

instance : IsTrans Sol (fun a b => a.score ≤ b.score) :=
  ⟨fun _ _ _ h1 h2 => le_trans h1 h2⟩

/-- Python protein density ranking key (protein.py lines 212-215):
protein / calories with a zero-calorie fallback divisor of 1. -/
def proteinDensity (info : Food) : ℚ :=
  info.protein / (if info.calories = 0 then 1 else info.calories)

/-- protein.py lines 212-220: rank filtered candidates by descending
protein density (stable), truncate to top_k, and keep the names. -/
def rankedNames (foods : List Food) (vegan : Bool) (allergen : Option String)
    (excluded_meats : List String) (top_k : ℕ) : List String :=
  ((List.insertionSort (fun a b => b.2 ≤ a.2)
    ((_filter_candidates foods vegan allergen excluded_meats).map
      fun f => (f, proteinDensity f))).take top_k).map (fun p => p.1.name)

/-- protein.py lines 407-422: walk the pool in order, skipping seen
signatures and solutions outside the protein window; append, then break
once the list length reaches max_alternatives. count is the current
length of the accumulated alternatives list. -/
def collectAlts (protein_window : ℚ) (max_alternatives : ℕ) (best_protein : ℚ) :
    ℕ → List (List String) → List Sol → List Sol
  | _, _, [] => []
  | count, seen, s :: rest =>
    if _solution_signature s ∈ seen then
      collectAlts protein_window max_alternatives best_protein count seen rest
    else if protein_window < |s.total_protein - best_protein| then
      collectAlts protein_window max_alternatives best_protein count seen rest
    else
      s :: (if max_alternatives ≤ count + 1 then []
            else collectAlts protein_window max_alternatives best_protein (count + 1)
              (_solution_signature s :: seen) rest)

/-- protein.py lines 397-405: deduplicate both pools and sort the selected
pool (accepted solutions if any, else all candidates) by score. -/
def searchPool (foods : List Food) (PAIRS : List (String × List String))
    (close : String → String → Bool) (calorie_goal protein_goal tolerance : ℚ)
    (max_items : ℕ) (max_servings : ℚ) (names : List String) : List Sol :=
  if (_dedupe (runTiers foods PAIRS close calorie_goal protein_goal max_items max_servings names
      [tolerance, tolerance * 2, tolerance * 3]).1).isEmpty then
    sortScore (_dedupe (runTiers foods PAIRS close calorie_goal protein_goal max_items max_servings
      names [tolerance, tolerance * 2, tolerance * 3]).2)
  else
    sortScore (_dedupe (runTiers foods PAIRS close calorie_goal protein_goal max_items max_servings
      names [tolerance, tolerance * 2, tolerance * 3]).1)

/-- protein.py lines 192-425: suggest_meal. Returns the best solution and
the alternatives list attached to it, or none. serving_step is clamped as
in the source (line 295) and then never used. -/
def suggest_meal (foods : List Food) (PAIRS : List (String × List String))
    (close : String → String → Bool) (calorie_goal protein_goal : ℚ)
    (vegan : Bool) (allergen : Option String) (excluded_meats : List String)
    (tolerance : ℚ) (max_items : ℕ) (max_servings serving_step : ℚ)
    (top_k : ℕ) (protein_window : ℚ) (max_alternatives : ℕ) :
    Option (Sol × List Sol) :=
  if (_filter_candidates foods vegan allergen excluded_meats).isEmpty then none
  else
    let _serving_step : ℚ := max (1 / 10) serving_step
    match searchPool foods PAIRS close calorie_goal protein_goal tolerance max_items max_servings
        (rankedNames foods vegan allergen excluded_meats top_k) with
    | [] => none
    | best :: rest =>
      some (best, collectAlts protein_window max_alternatives best.total_protein 0
        [_solution_signature best] rest)

/-! Comparison definitions written from the spec text (refinement targets),
and small concrete fixtures used by witnesses and counterexamples. -/

/-- Modelled from the spec (claim C5 wording): keep an item when, literally,
vegan_only implies is_vegan, the LOWERCASE form of a given allergen string is
not a substring of the lowercase allergen text, and each excluded token (as
given) is not a substring of the lowercase name nor allergen text. -/
def filter_claimed (foods : List Food) (vegan : Bool) (allergen : Option String)
    (excluded_meats : List String) : List Food :=
  let alg := match allergen with | none => "" | some a => pyLower a
  foods.filter fun f =>
    (!vegan || f.vegan) &&
    (alg == "" || !pySub alg (pyLower f.allergens)) &&
    excluded_meats.all (fun t => !pySub t (pyLower f.name) && !pySub t (pyLower f.allergens))

/-- Modelled from the spec (claim C6 wording): suggest_meal with the
excluded-category tokens first expanded through the category table before
the eligibility filter applies them. -/
def suggest_meal_claimed (foods : List Food) (PAIRS : List (String × List String))
    (close : String → String → Bool) (calorie_goal protein_goal : ℚ)
    (vegan : Bool) (allergen : Option String) (excluded_meats : List String)
    (tolerance : ℚ) (max_items : ℕ) (max_servings serving_step : ℚ)
    (top_k : ℕ) (protein_window : ℚ) (max_alternatives : ℕ) :
    Option (Sol × List Sol) :=
  suggest_meal foods PAIRS close calorie_goal protein_goal vegan allergen
    (expand_excluded_items excluded_meats) tolerance max_items max_servings
    serving_step top_k protein_window max_alternatives

/-- Fuzzy-match predicate that never accepts (a concrete instance of the
difflib abstraction for witnesses). -/
def noClose : String → String → Bool := fun _ _ => false

/-- Fixture: a single vegan item hitting no pairing key. -/
def tofuF : Food := ⟨"tofu", 200, 10, 5, 5, 3, true, ""⟩

/-- Fixture: an item whose name contains a token in the beef/milk expansion
tables but not the tokens themselves. -/
def cheeseF : Food := ⟨"cheese", 100, 5, 1, 8, 0, false, ""⟩

/-- Fixture: an item whose allergen text is exactly milk. -/
def cheeseMilkF : Food := ⟨"cheese wheel", 100, 5, 1, 8, 0, false, "milk"⟩

/-- Fixture: an item whose lowercase name contains beef. -/
def beefStewF : Food := ⟨"Beef stew", 300, 18, 10, 12, 2, false, ""⟩

/-- Fixtures: two same-macro items with distinct names, for alternative
selection scenarios. -/
def alphaF : Food := ⟨"alpha", 200, 10, 0, 0, 0, false, ""⟩

def bravoF : Food := ⟨"bravo", 200, 10, 0, 0, 0, false, ""⟩

/-- Fixture: the non-vegan single item of the spec's no-candidates scenario. -/
def itemAF : Food := ⟨"ItemA", 100, 5, 0, 0, 0, false, ""⟩

/-- Fixture: a high-protein item (25 g per serving). -/
def steakF : Food := ⟨"slab", 300, 25, 0, 20, 0, false, ""⟩

/-! ### Lemmas about the enumeration combinators -/

theorem forall₂_of_mem_listProd {α : Type} :
    ∀ {xss : List (List α)} {l : List α}, l ∈ listProd xss →
      List.Forall₂ (· ∈ ·) l xss
  | [], l, h => by
    simp only [listProd, List.mem_singleton] at h
    subst h; exact List.Forall₂.nil
  | xs :: rest, l, h => by
    simp only [listProd, List.mem_flatMap, List.mem_map] at h
    obtain ⟨x, hx, t, ht, rfl⟩ := h
    exact List.Forall₂.cons hx (forall₂_of_mem_listProd ht)

theorem sublist_of_mem_combinations {α : Type} :
    ∀ {l : List α} {r : ℕ} {c : List α}, c ∈ combinations r l → List.Sublist c l
  | l, 0, c, h => by
    simp only [combinations, List.mem_singleton] at h
    subst h; exact List.nil_sublist l
  | [], _ + 1, c, h => by simp [combinations] at h
  | x :: xs, r + 1, c, h => by
    simp only [combinations, List.mem_append, List.mem_map] at h
    rcases h with ⟨c', hc', rfl⟩ | h
    · exact List.Sublist.cons₂ x (sublist_of_mem_combinations hc')
    · exact List.Sublist.cons x (sublist_of_mem_combinations h)

/-! ### Serving quantization -/

theorem ratFloor_eq_floor (q : ℚ) : Rat.floor q = ⌊q⌋ :=
  (Rat.floor_def' q).trans Rat.floor_def.symm

theorem pyRound_natCast (n : ℕ) : pyRound (n : ℚ) = n := by
  simp only [pyRound, ratFloor_eq_floor, Int.floor_natCast]
  norm_num

theorem cap_eq_one_of_protein_gt {ms : ℚ} {f : Food} (h : 20 < f.protein) :
    max_servings_for_item ms f = 1 := by
  unfold max_servings_for_item
  rw [if_pos h]
  have hlt : (min ms 1 + 1 / 1000000000 : ℚ) < ((2 : ℤ) : ℚ) := by
    have := min_le_right ms (1 : ℚ)
    push_cast
    linarith
  have h2 : Rat.floor (min ms 1 + 1 / 1000000000) < 2 := by
    rw [ratFloor_eq_floor]; exact Int.floor_lt.mpr hlt
  have h3 : max 1 (Rat.floor (min ms 1 + 1 / 1000000000)) = 1 :=
    max_eq_left (by omega)
  show (max 1 (Rat.floor (min ms 1 + 1 / 1000000000))).toNat = 1
  rw [h3]; rfl

theorem mem_serving_values {ms : ℚ} {f : Food} {q : ℚ} :
    q ∈ serving_values_for_item ms f ↔
      ∃ n : ℕ, 1 ≤ n ∧ n ≤ max_servings_for_item ms f ∧ q = (n : ℚ) := by
  rw [serving_values_for_item, List.mem_map]
  constructor
  · rintro ⟨m, hm, hq⟩
    rw [List.mem_range'] at hm
    obtain ⟨i, hi, rfl⟩ := hm
    exact ⟨1 + 1 * i, by omega, by omega, hq.symm⟩
  · rintro ⟨n, h1, h2, rfl⟩
    exact ⟨n, List.mem_range'.mpr ⟨n - 1, by omega, by omega⟩, rfl⟩

/-! ### Basic facts about a generated solution record -/

theorem mkSolution_items (foods : List Food) (cg pg tol : ℚ) (combo : List String)
    (servings : List ℚ) :
    (mkSolution foods cg pg tol combo servings).items =
      (combo.zip servings).map (fun p => (p.1, ((pyRound p.2 : ℤ) : ℚ))) := rfl

theorem mkSolution_tolerance_used (foods : List Food) (cg pg tol : ℚ)
    (combo : List String) (servings : List ℚ) :
    (mkSolution foods cg pg tol combo servings).tolerance_used = tol := rfl

theorem mkSolution_total_calories (foods : List Food) (cg pg tol : ℚ)
    (combo : List String) (servings : List ℚ) :
    (mkSolution foods cg pg tol combo servings).total_calories =
      ((mkSolution foods cg pg tol combo servings).items.map
        (fun it => (lookupFood foods it.1).calories * it.2)).sum := by
  rw [mkSolution_items, List.map_map]; rfl

theorem mkSolution_total_protein (foods : List Food) (cg pg tol : ℚ)
    (combo : List String) (servings : List ℚ) :
    (mkSolution foods cg pg tol combo servings).total_protein =
      ((mkSolution foods cg pg tol combo servings).items.map
        (fun it => (lookupFood foods it.1).protein * it.2)).sum := by
  rw [mkSolution_items, List.map_map]; rfl

theorem mkSolution_total_fat (foods : List Food) (cg pg tol : ℚ)
    (combo : List String) (servings : List ℚ) :
    (mkSolution foods cg pg tol combo servings).total_fat =
      ((mkSolution foods cg pg tol combo servings).items.map
        (fun it => (lookupFood foods it.1).fat * it.2)).sum := by
  rw [mkSolution_items, List.map_map]; rfl

theorem mkSolution_total_carbs (foods : List Food) (cg pg tol : ℚ)
    (combo : List String) (servings : List ℚ) :
    (mkSolution foods cg pg tol combo servings).total_carbs =
      ((mkSolution foods cg pg tol combo servings).items.map
        (fun it => (lookupFood foods it.1).carbs * it.2)).sum := by
  rw [mkSolution_items, List.map_map]; rfl

theorem mkSolution_total_fiber (foods : List Food) (cg pg tol : ℚ)
    (combo : List String) (servings : List ℚ) :
    (mkSolution foods cg pg tol combo servings).total_fiber =
      ((mkSolution foods cg pg tol combo servings).items.map
        (fun it => (lookupFood foods it.1).fiber * it.2)).sum := by
  rw [mkSolution_items, List.map_map]; rfl

theorem mkSolution_within_iff (foods : List Food) (cg pg tol : ℚ)
    (combo : List String) (servings : List ℚ) :
    (mkSolution foods cg pg tol combo servings).within_tolerance = true ↔
      (cg * (1 - tol) ≤ (mkSolution foods cg pg tol combo servings).total_calories ∧
       (mkSolution foods cg pg tol combo servings).total_calories ≤ cg * (1 + tol) ∧
       pg * (1 - tol) ≤ (mkSolution foods cg pg tol combo servings).total_protein ∧
       (mkSolution foods cg pg tol combo servings).total_protein ≤ pg * (1 + tol)) := by
  exact decide_eq_true_iff

/-! ### Where solutions of a tier come from -/

theorem of_mem_tierSols {foods : List Food} {PAIRS : List (String × List String)}
    {close : String → String → Bool} {cg pg : ℚ} {mi : ℕ} {ms : ℚ}
    {names : List String} {tol : ℚ} {s : Sol}
    (h : s ∈ tierSols foods PAIRS close cg pg mi ms names tol) :
    ∃ combo servings, List.Sublist combo names ∧
      servings.length = combo.length ∧
      List.Forall₂ (fun q nm => q ∈ serving_values_for_item ms (lookupFood foods nm))
        servings combo ∧
      pairs_ok foods PAIRS close combo = true ∧
      s = mkSolution foods cg pg tol combo servings := by
  simp only [tierSols, List.mem_flatMap] at h
  obtain ⟨r, _, combo, hcombo, h⟩ := h
  refine ⟨combo, ?_⟩
  split at h
  · cases h
  · rw [List.mem_filterMap] at h
    obtain ⟨servings, hserv, hF⟩ := h
    refine ⟨servings, sublist_of_mem_combinations hcombo, ?_, ?_, ?_, ?_⟩
    · exact (forall₂_of_mem_listProd hserv).length_eq.trans (List.length_map _ _)
    · exact List.forall₂_map_right_iff.mp (forall₂_of_mem_listProd hserv)
    · by_contra hok
      rw [if_neg hok] at hF; cases hF
    · by_cases hok : pairs_ok foods PAIRS close combo = true
      · rw [if_pos hok] at hF; exact (Option.some.injEq _ _ ▸ hF).symm
      · rw [if_neg hok] at hF; cases hF

theorem runTiers_mem {foods : List Food} {PAIRS : List (String × List String)}
    {close : String → String → Bool} {cg pg : ℚ} {mi : ℕ} {ms : ℚ}
    {names : List String} :
    ∀ (ts : List ℚ) (s : Sol),
      s ∈ (runTiers foods PAIRS close cg pg mi ms names ts).1 ∨
      s ∈ (runTiers foods PAIRS close cg pg mi ms names ts).2 →
      ∃ tol ∈ ts, s ∈ tierSols foods PAIRS close cg pg mi ms names tol := by
  intro ts
  induction ts with
  | nil => intro s h; simp [runTiers] at h
  | cons tol rest ih =>
    intro s h
    simp only [runTiers] at h
    by_cases hE : ((tierSols foods PAIRS close cg pg mi ms names tol).filter
        (fun s => s.within_tolerance)).isEmpty
    · rw [if_pos hE] at h
      dsimp only at h
      rcases h with h | h
      · rcases List.mem_append.mp h with h | h
        · exact ⟨tol, List.mem_cons_self _ _, (List.mem_filter.mp h).1⟩
        · obtain ⟨t, ht, hs⟩ := ih s (Or.inl h)
          exact ⟨t, List.mem_cons_of_mem _ ht, hs⟩
      · rcases List.mem_append.mp h with h | h
        · exact ⟨tol, List.mem_cons_self _ _, h⟩
        · obtain ⟨t, ht, hs⟩ := ih s (Or.inr h)
          exact ⟨t, List.mem_cons_of_mem _ ht, hs⟩
    · rw [if_neg hE] at h
      dsimp only at h
      rcases h with h | h
      · exact ⟨tol, List.mem_cons_self _ _, (List.mem_filter.mp h).1⟩
      · exact ⟨tol, List.mem_cons_self _ _, h⟩

/-! ### The signature-keyed deduplication -/

theorem updateSig_snd_mem {acc : List (List String × Sol)} {e v : Sol}
    (h : v ∈ (updateSig acc e).map Prod.snd) : v ∈ acc.map Prod.snd ∨ v = e := by
  induction acc with
  | nil =>
    simp only [updateSig, List.map_cons, List.map_nil, List.mem_singleton] at h
    exact Or.inr h
  | cons kv rest ih =>
    simp only [updateSig] at h
    by_cases h1 : kv.1 = _solution_signature e
    · rw [if_pos h1] at h
      by_cases h2 : e.score < kv.2.score
      · rw [if_pos h2] at h
        rcases List.mem_cons.mp h with h | h
        · exact Or.inr h
        · exact Or.inl (List.mem_cons_of_mem _ h)
      · rw [if_neg h2] at h
        exact Or.inl h
    · rw [if_neg h1] at h
      rcases List.mem_cons.mp h with h | h
      · exact Or.inl (List.mem_cons.mpr (Or.inl h))
      · rcases ih h with h | h
        · exact Or.inl (List.mem_cons_of_mem _ h)
        · exact Or.inr h

theorem mem_of_mem_dedupe {entries : List Sol} {s : Sol}
    (h : s ∈ _dedupe entries) : s ∈ entries := by
  unfold _dedupe at h
  suffices H : ∀ (es : List Sol) (acc : List (List String × Sol)),
      s ∈ (es.foldl updateSig acc).map Prod.snd →
      s ∈ acc.map Prod.snd ∨ s ∈ es by
    rcases H entries [] h with h1 | h1
    · simp at h1
    · exact h1
  intro es
  induction es with
  | nil => intro acc h1; exact Or.inl h1
  | cons e rest ih =>
    intro acc h1
    rw [List.foldl_cons] at h1
    rcases ih _ h1 with h2 | h2
    · rcases updateSig_snd_mem h2 with h3 | h3
      · exact Or.inl h3
      · exact Or.inr (h3 ▸ List.mem_cons_self _ _)
    · exact Or.inr (List.mem_cons_of_mem _ h2)

theorem updateSig_key_inv (e : Sol) :
    ∀ (acc : List (List String × Sol)),
      (∀ kv ∈ acc, kv.1 = _solution_signature kv.2) →
      ∀ kv ∈ updateSig acc e, kv.1 = _solution_signature kv.2
  | [], _, kv, hkv => by
    simp only [updateSig, List.mem_singleton] at hkv
    subst hkv; rfl
  | kv0 :: rest, hinv, kv, hkv => by
    simp only [updateSig] at hkv
    by_cases h1 : kv0.1 = _solution_signature e
    · rw [if_pos h1] at hkv
      by_cases h2 : e.score < kv0.2.score
      · rw [if_pos h2] at hkv
        rcases List.mem_cons.mp hkv with h | h
        · rw [h]; exact h1
        · exact hinv kv (List.mem_cons_of_mem _ h)
      · rw [if_neg h2] at hkv
        exact hinv kv hkv
    · rw [if_neg h1] at hkv
      rcases List.mem_cons.mp hkv with h | h
      · rw [h]; exact hinv kv0 (List.mem_cons_self _ _)
      · exact updateSig_key_inv e rest (fun p hp => hinv p (List.mem_cons_of_mem _ hp)) kv h

theorem updateSig_keys (e : Sol) :
    ∀ (acc : List (List String × Sol)),
      (updateSig acc e).map Prod.fst =
        if _solution_signature e ∈ acc.map Prod.fst then acc.map Prod.fst
        else acc.map Prod.fst ++ [_solution_signature e]
  | [] => by simp [updateSig]
  | kv :: rest => by
    simp only [updateSig]
    by_cases h1 : kv.1 = _solution_signature e
    · rw [if_pos h1]
      have hm : _solution_signature e ∈ (kv :: rest).map Prod.fst :=
        List.mem_cons.mpr (Or.inl h1.symm)
      by_cases h2 : e.score < kv.2.score
      · rw [if_pos h2, if_pos hm]
        simp only [List.map_cons]
      · rw [if_neg h2, if_pos hm]
    · rw [if_neg h1]
      have hne : _solution_signature e ≠ kv.1 := fun he => h1 he.symm
      by_cases h3 : _solution_signature e ∈ rest.map Prod.fst
      · have hm : _solution_signature e ∈ (kv :: rest).map Prod.fst :=
          List.mem_cons.mpr (Or.inr h3)
        rw [if_pos hm]
        simp only [List.map_cons, updateSig_keys e rest, if_pos h3]
      · have hm : _solution_signature e ∉ (kv :: rest).map Prod.fst := by
          simp only [List.map_cons, List.mem_cons]
          push_neg
          exact ⟨hne, h3⟩
        rw [if_neg hm]
        simp only [List.map_cons, updateSig_keys e rest, if_neg h3, List.cons_append]

theorem updateSig_keys_nodup {acc : List (List String × Sol)} {e : Sol}
    (h : (acc.map Prod.fst).Nodup) : ((updateSig acc e).map Prod.fst).Nodup := by
  rw [updateSig_keys e acc]
  split
  · exact h
  · next hnm => exact List.nodup_append.mpr ⟨h, List.nodup_singleton _,
      List.disjoint_singleton.mpr hnm⟩

theorem updateSig_min_old (e : Sol) :
    ∀ (acc : List (List String × Sol)),
      (∀ kv ∈ acc, kv.1 = _solution_signature kv.2) →
      ∀ v ∈ acc.map Prod.snd, ∃ w ∈ (updateSig acc e).map Prod.snd,
        _solution_signature w = _solution_signature v ∧ w.score ≤ v.score
  | [], _, v, hv => by simp at hv
  | kv :: rest, hinv, v, hv => by
    simp only [updateSig]
    rcases List.mem_cons.mp hv with hv | hv
    · by_cases h1 : kv.1 = _solution_signature e
      · by_cases h2 : e.score < kv.2.score
        · rw [if_pos h1, if_pos h2]
          refine ⟨e, List.mem_cons_self _ _, ?_, ?_⟩
          · rw [← h1, hinv kv (List.mem_cons_self _ _), hv]
          · rw [hv]; exact le_of_lt h2
        · rw [if_pos h1, if_neg h2]
          exact ⟨v, List.mem_cons.mpr (Or.inl hv), rfl, le_refl _⟩
      · rw [if_neg h1]
        exact ⟨v, List.mem_cons.mpr (Or.inl hv), rfl, le_refl _⟩
    · by_cases h1 : kv.1 = _solution_signature e
      · by_cases h2 : e.score < kv.2.score
        · rw [if_pos h1, if_pos h2]
          exact ⟨v, List.mem_cons_of_mem _ hv, rfl, le_refl _⟩
        · rw [if_pos h1, if_neg h2]
          exact ⟨v, List.mem_cons_of_mem _ hv, rfl, le_refl _⟩
      · rw [if_neg h1]
        obtain ⟨w, hw, hsig, hsc⟩ :=
          updateSig_min_old e rest (fun p hp => hinv p (List.mem_cons_of_mem _ hp)) v hv
        exact ⟨w, List.mem_cons_of_mem _ hw, hsig, hsc⟩

theorem updateSig_min_new (e : Sol) :
    ∀ (acc : List (List String × Sol)),
      (∀ kv ∈ acc, kv.1 = _solution_signature kv.2) →
      ∃ w ∈ (updateSig acc e).map Prod.snd,
        _solution_signature w = _solution_signature e ∧ w.score ≤ e.score
  | [], _ => ⟨e, by simp [updateSig], rfl, le_refl _⟩
  | kv :: rest, hinv => by
    simp only [updateSig]
    by_cases h1 : kv.1 = _solution_signature e
    · by_cases h2 : e.score < kv.2.score
      · rw [if_pos h1, if_pos h2]
        exact ⟨e, List.mem_cons_self _ _, rfl, le_refl _⟩
      · rw [if_pos h1, if_neg h2]
        refine ⟨kv.2, List.mem_cons_self _ _, ?_, le_of_not_lt h2⟩
        rw [← hinv kv (List.mem_cons_self _ _), h1]
    · rw [if_neg h1]
      obtain ⟨w, hw, hsig, hsc⟩ :=
        updateSig_min_new e rest (fun p hp => hinv p (List.mem_cons_of_mem _ hp))
      exact ⟨w, List.mem_cons_of_mem _ hw, hsig, hsc⟩

theorem dedupe_min {entries : List Sol} :
    ∀ e ∈ entries, ∃ d ∈ _dedupe entries,
      _solution_signature d = _solution_signature e ∧ d.score ≤ e.score := by
  unfold _dedupe
  suffices H : ∀ (es : List Sol) (acc : List (List String × Sol)),
      (∀ kv ∈ acc, kv.1 = _solution_signature kv.2) →
      ∀ v, (v ∈ acc.map Prod.snd ∨ v ∈ es) →
      ∃ w ∈ (es.foldl updateSig acc).map Prod.snd,
        _solution_signature w = _solution_signature v ∧ w.score ≤ v.score by
    intro e he
    exact H entries [] (by simp) e (Or.inr he)
  intro es
  induction es with
  | nil =>
    intro acc _ v hv
    rcases hv with hv | hv
    · exact ⟨v, hv, rfl, le_refl _⟩
    · simp at hv
  | cons e rest ih =>
    intro acc hinv v hv
    rw [List.foldl_cons]
    have hinv2 := updateSig_key_inv e acc hinv
    rcases hv with hv | hv
    · obtain ⟨w1, hw1, hsig1, hsc1⟩ := updateSig_min_old e acc hinv v hv
      obtain ⟨w, hw, hsig, hsc⟩ := ih (updateSig acc e) hinv2 w1 (Or.inl hw1)
      exact ⟨w, hw, hsig.trans hsig1, hsc.trans hsc1⟩
    · rcases List.mem_cons.mp hv with hv | hv
      · subst hv
        obtain ⟨w1, hw1, hsig1, hsc1⟩ := updateSig_min_new v acc hinv
        obtain ⟨w, hw, hsig, hsc⟩ := ih (updateSig acc v) hinv2 w1 (Or.inl hw1)
        exact ⟨w, hw, hsig.trans hsig1, hsc.trans hsc1⟩
      · exact ih (updateSig acc e) hinv2 v (Or.inr hv)

theorem dedupe_sig_nodup (entries : List Sol) :
    ((_dedupe entries).map _solution_signature).Nodup := by
  suffices H : ∀ (es : List Sol) (acc : List (List String × Sol)),
      (∀ kv ∈ acc, kv.1 = _solution_signature kv.2) →
      ((acc.map Prod.fst).Nodup) →
      (∀ kv ∈ es.foldl updateSig acc, kv.1 = _solution_signature kv.2) ∧
      ((es.foldl updateSig acc).map Prod.fst).Nodup by
    obtain ⟨hinv, hnd⟩ := H entries [] (by simp) (by simp)
    unfold _dedupe
    have hmap : ((entries.foldl updateSig []).map Prod.snd).map _solution_signature =
        (entries.foldl updateSig []).map Prod.fst := by
      rw [List.map_map]
      exact List.map_congr_left (fun kv hkv => (hinv kv hkv).symm)
    rw [hmap]
    exact hnd
  intro es
  induction es with
  | nil => intro acc h1 h2; exact ⟨h1, h2⟩
  | cons e rest ih =>
    intro acc h1 h2
    rw [List.foldl_cons]
    exact ih (updateSig acc e) (updateSig_key_inv e acc h1) (updateSig_keys_nodup h2)

/-! ### The alternatives walk -/

theorem collectAlts_sublist (pw : ℚ) (ma : ℕ) (bp : ℚ) :
    ∀ (count : ℕ) (seen : List (List String)) (l : List Sol),
      List.Sublist (collectAlts pw ma bp count seen l) l
  | _, _, [] => by simp [collectAlts]
  | count, seen, s :: rest => by
    simp only [collectAlts]
    by_cases h1 : _solution_signature s ∈ seen
    · rw [if_pos h1]
      exact (collectAlts_sublist pw ma bp count seen rest).cons s
    · rw [if_neg h1]
      by_cases h2 : pw < |s.total_protein - bp|
      · rw [if_pos h2]
        exact (collectAlts_sublist pw ma bp count seen rest).cons s
      · rw [if_neg h2]
        refine List.Sublist.cons₂ s ?_
        by_cases h3 : ma ≤ count + 1
        · rw [if_pos h3]; exact List.nil_sublist rest
        · rw [if_neg h3]
          exact collectAlts_sublist pw ma bp (count + 1) (_solution_signature s :: seen) rest

theorem collectAlts_window (pw : ℚ) (ma : ℕ) (bp : ℚ) :
    ∀ (count : ℕ) (seen : List (List String)) (l : List Sol),
      ∀ a ∈ collectAlts pw ma bp count seen l, |a.total_protein - bp| ≤ pw
  | _, _, [], a, ha => by simp [collectAlts] at ha
  | count, seen, s :: rest, a, ha => by
    simp only [collectAlts] at ha
    by_cases h1 : _solution_signature s ∈ seen
    · rw [if_pos h1] at ha
      exact collectAlts_window pw ma bp count seen rest a ha
    · rw [if_neg h1] at ha
      by_cases h2 : pw < |s.total_protein - bp|
      · rw [if_pos h2] at ha
        exact collectAlts_window pw ma bp count seen rest a ha
      · rw [if_neg h2] at ha
        rcases List.mem_cons.mp ha with h | h
        · rw [h]; exact le_of_not_lt h2
        · by_cases h3 : ma ≤ count + 1
          · rw [if_pos h3] at h; simp at h
          · rw [if_neg h3] at h
            exact collectAlts_window pw ma bp (count + 1)
              (_solution_signature s :: seen) rest a h

theorem collectAlts_length (pw : ℚ) (ma : ℕ) (bp : ℚ) :
    ∀ (count : ℕ) (seen : List (List String)) (l : List Sol), count < ma →
      (collectAlts pw ma bp count seen l).length + count ≤ ma
  | count, seen, [], h => by simp [collectAlts]; omega
  | count, seen, s :: rest, h => by
    simp only [collectAlts]
    by_cases h1 : _solution_signature s ∈ seen
    · rw [if_pos h1]; exact collectAlts_length pw ma bp count seen rest h
    · rw [if_neg h1]
      by_cases h2 : pw < |s.total_protein - bp|
      · rw [if_pos h2]; exact collectAlts_length pw ma bp count seen rest h
      · rw [if_neg h2]
        by_cases h3 : ma ≤ count + 1
        · rw [if_pos h3]
          simp only [List.length_cons, List.length_nil]
          omega
        · rw [if_neg h3]
          have := collectAlts_length pw ma bp (count + 1)
            (_solution_signature s :: seen) rest (by omega)
          simp only [List.length_cons]
          omega

theorem collectAlts_sig (pw : ℚ) (ma : ℕ) (bp : ℚ) :
    ∀ (count : ℕ) (seen : List (List String)) (l : List Sol),
      (∀ a ∈ collectAlts pw ma bp count seen l, _solution_signature a ∉ seen) ∧
      ((collectAlts pw ma bp count seen l).map _solution_signature).Nodup
  | _, _, [] => by simp [collectAlts]
  | count, seen, s :: rest => by
    simp only [collectAlts]
    by_cases h1 : _solution_signature s ∈ seen
    · rw [if_pos h1]; exact collectAlts_sig pw ma bp count seen rest
    · rw [if_neg h1]
      by_cases h2 : pw < |s.total_protein - bp|
      · rw [if_pos h2]; exact collectAlts_sig pw ma bp count seen rest
      · rw [if_neg h2]
        by_cases h3 : ma ≤ count + 1
        · rw [if_pos h3]
          constructor
          · intro a ha
            rcases List.mem_cons.mp ha with h | h
            · rw [h]; exact h1
            · simp at h
          · simp
        · rw [if_neg h3]
          obtain ⟨IH1, IH2⟩ := collectAlts_sig pw ma bp (count + 1)
            (_solution_signature s :: seen) rest
          constructor
          · intro a ha
            rcases List.mem_cons.mp ha with h | h
            · rw [h]; exact h1
            · exact fun hs => IH1 a h (List.mem_cons_of_mem _ hs)
          · refine List.nodup_cons.mpr ⟨?_, IH2⟩
            intro hmem
            obtain ⟨a, ha, hsig⟩ := List.mem_map.mp hmem
            exact IH1 a ha (hsig ▸ List.mem_cons_self _ _)

/-! ### From the returned value back to the pools -/

theorem rankedNames_nodup {foods : List Food} {vegan : Bool} {allergen : Option String}
    {ex : List String} {tk : ℕ} (h : (foods.map Food.name).Nodup) :
    (rankedNames foods vegan allergen ex tk).Nodup := by
  unfold rankedNames
  have h1 : List.Sublist (_filter_candidates foods vegan allergen ex) foods := by
    unfold _filter_candidates
    exact List.filter_sublist _
  have h2 : ((_filter_candidates foods vegan allergen ex).map Food.name).Nodup :=
    h.sublist (h1.map Food.name)
  have hper :
      List.Perm
        (List.insertionSort (fun a b => b.2 ≤ a.2)
          ((_filter_candidates foods vegan allergen ex).map fun f => (f, proteinDensity f)))
        ((_filter_candidates foods vegan allergen ex).map fun f => (f, proteinDensity f)) :=
    List.perm_insertionSort _ _
  have h3 :
      ((List.insertionSort (fun a b => b.2 ≤ a.2)
        ((_filter_candidates foods vegan allergen ex).map fun f => (f, proteinDensity f))).map
          (fun p => p.1.name)).Nodup := by
    refine ((hper.map (fun p => p.1.name)).nodup_iff).mpr ?_
    rw [List.map_map]
    exact h2
  exact h3.sublist ((List.take_sublist tk _).map (fun p : Food × ℚ => p.1.name))

theorem searchPool_sorted (foods : List Food) (PAIRS : List (String × List String))
    (close : String → String → Bool) (cg pg tolerance : ℚ) (mi : ℕ) (ms : ℚ)
    (names : List String) :
    List.Sorted (fun a b : Sol => a.score ≤ b.score)
      (searchPool foods PAIRS close cg pg tolerance mi ms names) := by
  unfold searchPool
  split
  · exact List.sorted_insertionSort _ _
  · exact List.sorted_insertionSort _ _

theorem mem_searchPool {foods : List Food} {PAIRS : List (String × List String)}
    {close : String → String → Bool} {cg pg tolerance : ℚ} {mi : ℕ} {ms : ℚ}
    {names : List String} {s : Sol}
    (h : s ∈ searchPool foods PAIRS close cg pg tolerance mi ms names) :
    ∃ tol ∈ [tolerance, tolerance * 2, tolerance * 3],
      s ∈ tierSols foods PAIRS close cg pg mi ms names tol := by
  unfold searchPool at h
  split at h
  · simp only [sortScore] at h
    rw [List.mem_insertionSort] at h
    exact runTiers_mem _ s (Or.inr (mem_of_mem_dedupe h))
  · simp only [sortScore] at h
    rw [List.mem_insertionSort] at h
    exact runTiers_mem _ s (Or.inl (mem_of_mem_dedupe h))

theorem suggest_meal_destruct {foods : List Food} {PAIRS : List (String × List String)}
    {close : String → String → Bool} {cg pg : ℚ} {vegan : Bool}
    {allergen : Option String} {ex : List String} {tolerance : ℚ} {mi : ℕ}
    {ms step : ℚ} {tk : ℕ} {pw : ℚ} {ma : ℕ} {b : Sol} {alts : List Sol}
    (h : suggest_meal foods PAIRS close cg pg vegan allergen ex tolerance mi ms step tk pw ma =
      some (b, alts)) :
    ∃ rest,
      searchPool foods PAIRS close cg pg tolerance mi ms
        (rankedNames foods vegan allergen ex tk) = b :: rest ∧
      alts = collectAlts pw ma b.total_protein 0 [_solution_signature b] rest := by
  unfold suggest_meal at h
  split at h
  · cases h
  · rcases hp : searchPool foods PAIRS close cg pg tolerance mi ms
        (rankedNames foods vegan allergen ex tk) with _ | ⟨best, rest⟩
    · rw [hp] at h; cases h
    · rw [hp] at h
      simp only [Option.some.injEq, Prod.mk.injEq] at h
      obtain ⟨hb, ha⟩ := h
      subst hb
      exact ⟨rest, rfl, ha.symm⟩

theorem suggest_meal_origin {foods : List Food} {PAIRS : List (String × List String)}
    {close : String → String → Bool} {cg pg : ℚ} {vegan : Bool}
    {allergen : Option String} {ex : List String} {tolerance : ℚ} {mi : ℕ}
    {ms step : ℚ} {tk : ℕ} {pw : ℚ} {ma : ℕ} {b : Sol} {alts : List Sol}
    (h : suggest_meal foods PAIRS close cg pg vegan allergen ex tolerance mi ms step tk pw ma =
      some (b, alts)) :
    ∀ s ∈ b :: alts, ∃ tol ∈ [tolerance, tolerance * 2, tolerance * 3],
      s ∈ tierSols foods PAIRS close cg pg mi ms (rankedNames foods vegan allergen ex tk) tol := by
  obtain ⟨rest, hp, halts⟩ := suggest_meal_destruct h
  intro s hs
  rcases List.mem_cons.mp hs with hs | hs
  · subst hs
    exact mem_searchPool (hp ▸ List.mem_cons_self _ _)
  · have h1 : s ∈ rest := by
      have := collectAlts_sublist pw ma b.total_protein 0 [_solution_signature b] rest
      exact this.mem (halts ▸ hs)
    exact mem_searchPool (hp ▸ List.mem_cons_of_mem _ h1)

theorem forall₂_zip_pair {α β : Type} {R : α → β → Prop} :
    ∀ {l₁ : List α} {l₂ : List β}, List.Forall₂ R l₁ l₂ →
      ∀ p ∈ l₂.zip l₁, R p.2 p.1
  | _, _, List.Forall₂.nil, p, hp => by simp at hp
  | _, _, List.Forall₂.cons h t, p, hp => by
    rcases List.mem_cons.mp hp with h1 | h1
    · rw [h1]; exact h
    · exact forall₂_zip_pair t p h1

theorem sol_items_qty {foods : List Food} {PAIRS : List (String × List String)}
    {close : String → String → Bool} {cg pg : ℚ} {mi : ℕ} {ms : ℚ}
    {names : List String} {tol : ℚ} {s : Sol}
    (h : s ∈ tierSols foods PAIRS close cg pg mi ms names tol) :
    ∀ it ∈ s.items, ∃ n : ℕ,
      1 ≤ n ∧ n ≤ max_servings_for_item ms (lookupFood foods it.1) ∧ it.2 = (n : ℚ) := by
  obtain ⟨combo, servings, _, _, hf2, _, rfl⟩ := of_mem_tierSols h
  intro it hit
  rw [mkSolution_items] at hit
  obtain ⟨p, hp, rfl⟩ := List.mem_map.mp hit
  obtain ⟨nm, q⟩ := p
  have hq : q ∈ serving_values_for_item ms (lookupFood foods nm) :=
    forall₂_zip_pair hf2 (nm, q) hp
  obtain ⟨n, h1, h2, rfl⟩ := mem_serving_values.mp hq
  refine ⟨n, h1, h2, ?_⟩
  show ((pyRound (n : ℚ) : ℤ) : ℚ) = (n : ℚ)
  rw [pyRound_natCast]
  push_cast
  rfl

/-- C1: for every Solution returned by suggest_meal (the best and every
alternative), each aggregated macro total equals exactly the sum over its
items of the catalog per-serving value times the recorded quantity. -/
theorem claim_C1 (foods : List Food) (PAIRS : List (String × List String))
    (close : String → String → Bool) (calorie_goal protein_goal : ℚ) (vegan : Bool)
    (allergen : Option String) (excluded_meats : List String) (tolerance : ℚ)
    (max_items : ℕ) (max_servings serving_step : ℚ) (top_k : ℕ) (protein_window : ℚ)
    (max_alternatives : ℕ) (b : Sol) (alts : List Sol)
    (h : suggest_meal foods PAIRS close calorie_goal protein_goal vegan allergen
      excluded_meats tolerance max_items max_servings serving_step top_k protein_window
      max_alternatives = some (b, alts)) :
    ∀ s ∈ b :: alts,
      s.total_calories = (s.items.map fun it => (lookupFood foods it.1).calories * it.2).sum ∧
      s.total_protein = (s.items.map fun it => (lookupFood foods it.1).protein * it.2).sum ∧
      s.total_carbs = (s.items.map fun it => (lookupFood foods it.1).carbs * it.2).sum ∧
      s.total_fat = (s.items.map fun it => (lookupFood foods it.1).fat * it.2).sum ∧
      s.total_fiber = (s.items.map fun it => (lookupFood foods it.1).fiber * it.2).sum := by
  intro s hs
  obtain ⟨tol, _, hmem⟩ := suggest_meal_origin h s hs
  obtain ⟨combo, servings, _, _, _, _, rfl⟩ := of_mem_tierSols hmem
  exact ⟨mkSolution_total_calories foods calorie_goal protein_goal tol combo servings,
    mkSolution_total_protein foods calorie_goal protein_goal tol combo servings,
    mkSolution_total_carbs foods calorie_goal protein_goal tol combo servings,
    mkSolution_total_fat foods calorie_goal protein_goal tol combo servings,
    mkSolution_total_fiber foods calorie_goal protein_goal tol combo servings⟩

theorem claim_C1_witness :
    (⟨[("tofu", 1)], 200, 10, 5, 5, 3, 1 / 10, 0, true⟩ : Sol).total_calories =
      (((⟨[("tofu", 1)], 200, 10, 5, 5, 3, 1 / 10, 0, true⟩ : Sol)).items.map
        fun it => (lookupFood [tofuF] it.1).calories * it.2).sum ∧
    (⟨[("tofu", 1)], 200, 10, 5, 5, 3, 1 / 10, 0, true⟩ : Sol).total_protein =
      (((⟨[("tofu", 1)], 200, 10, 5, 5, 3, 1 / 10, 0, true⟩ : Sol)).items.map
        fun it => (lookupFood [tofuF] it.1).protein * it.2).sum ∧
    (⟨[("tofu", 1)], 200, 10, 5, 5, 3, 1 / 10, 0, true⟩ : Sol).total_carbs =
      (((⟨[("tofu", 1)], 200, 10, 5, 5, 3, 1 / 10, 0, true⟩ : Sol)).items.map
        fun it => (lookupFood [tofuF] it.1).carbs * it.2).sum ∧
    (⟨[("tofu", 1)], 200, 10, 5, 5, 3, 1 / 10, 0, true⟩ : Sol).total_fat =
      (((⟨[("tofu", 1)], 200, 10, 5, 5, 3, 1 / 10, 0, true⟩ : Sol)).items.map
        fun it => (lookupFood [tofuF] it.1).fat * it.2).sum ∧
    (⟨[("tofu", 1)], 200, 10, 5, 5, 3, 1 / 10, 0, true⟩ : Sol).total_fiber =
      (((⟨[("tofu", 1)], 200, 10, 5, 5, 3, 1 / 10, 0, true⟩ : Sol)).items.map
        fun it => (lookupFood [tofuF] it.1).fiber * it.2).sum :=
  claim_C1 [tofuF] [] noClose 200 10 false none [] (1 / 10) 4 3 (1 / 2) 10 10 5
    ⟨[("tofu", 1)], 200, 10, 5, 5, 3, 1 / 10, 0, true⟩ []
    (by with_unfolding_all decide) _ (List.mem_cons_self _ _)

/-- C4: an item whose per-serving protein exceeds 20 g never appears with
quantity greater than one in any returned Solution, for every max_servings. -/
theorem claim_C4 (foods : List Food) (PAIRS : List (String × List String))
    (close : String → String → Bool) (calorie_goal protein_goal : ℚ) (vegan : Bool)
    (allergen : Option String) (excluded_meats : List String) (tolerance : ℚ)
    (max_items : ℕ) (max_servings serving_step : ℚ) (top_k : ℕ) (protein_window : ℚ)
    (max_alternatives : ℕ) (b : Sol) (alts : List Sol)
    (h : suggest_meal foods PAIRS close calorie_goal protein_goal vegan allergen
      excluded_meats tolerance max_items max_servings serving_step top_k protein_window
      max_alternatives = some (b, alts)) :
    ∀ s ∈ b :: alts, ∀ it ∈ s.items,
      20 < (lookupFood foods it.1).protein → it.2 ≤ 1 := by
  intro s hs it hit hpro
  obtain ⟨tol, _, hmem⟩ := suggest_meal_origin h s hs
  obtain ⟨n, _, h2, hq⟩ := sol_items_qty hmem it hit
  rw [cap_eq_one_of_protein_gt hpro] at h2
  rw [hq]
  exact_mod_cast h2

theorem claim_C4_witness :
    (("slab", (1 : ℚ)) : String × ℚ).2 ≤ 1 :=
  claim_C4 [steakF] [] noClose 300 25 false none [] (1 / 10) 4 3 (1 / 2) 10 10 5
    ⟨[("slab", 1)], 300, 25, 20, 0, 0, 1 / 10, 0, true⟩ []
    (by with_unfolding_all decide) _ (List.mem_cons_self _ _) ("slab", 1)
    (List.mem_cons_self _ _) (by with_unfolding_all decide)

/-- C8: every Solution carrying within_tolerance = true satisfies the
calorie and protein band for the tolerance recorded on it. -/
theorem claim_C8 (foods : List Food) (PAIRS : List (String × List String))
    (close : String → String → Bool) (calorie_goal protein_goal : ℚ) (vegan : Bool)
    (allergen : Option String) (excluded_meats : List String) (tolerance : ℚ)
    (max_items : ℕ) (max_servings serving_step : ℚ) (top_k : ℕ) (protein_window : ℚ)
    (max_alternatives : ℕ) (b : Sol) (alts : List Sol)
    (h : suggest_meal foods PAIRS close calorie_goal protein_goal vegan allergen
      excluded_meats tolerance max_items max_servings serving_step top_k protein_window
      max_alternatives = some (b, alts)) :
    ∀ s ∈ b :: alts, s.within_tolerance = true →
      calorie_goal * (1 - s.tolerance_used) ≤ s.total_calories ∧
      s.total_calories ≤ calorie_goal * (1 + s.tolerance_used) ∧
      protein_goal * (1 - s.tolerance_used) ≤ s.total_protein ∧
      s.total_protein ≤ protein_goal * (1 + s.tolerance_used) := by
  intro s hs hw
  obtain ⟨tol, _, hmem⟩ := suggest_meal_origin h s hs
  obtain ⟨combo, servings, _, _, _, _, rfl⟩ := of_mem_tierSols hmem
  rw [mkSolution_tolerance_used]
  exact (mkSolution_within_iff foods calorie_goal protein_goal tol combo servings).mp hw

theorem claim_C8_witness :
    (200 : ℚ) * (1 - (⟨[("tofu", 1)], 200, 10, 5, 5, 3, 1 / 10, 0, true⟩ : Sol).tolerance_used) ≤
      (⟨[("tofu", 1)], 200, 10, 5, 5, 3, 1 / 10, 0, true⟩ : Sol).total_calories ∧
    (⟨[("tofu", 1)], 200, 10, 5, 5, 3, 1 / 10, 0, true⟩ : Sol).total_calories ≤
      200 * (1 + (⟨[("tofu", 1)], 200, 10, 5, 5, 3, 1 / 10, 0, true⟩ : Sol).tolerance_used) ∧
    (10 : ℚ) * (1 - (⟨[("tofu", 1)], 200, 10, 5, 5, 3, 1 / 10, 0, true⟩ : Sol).tolerance_used) ≤
      (⟨[("tofu", 1)], 200, 10, 5, 5, 3, 1 / 10, 0, true⟩ : Sol).total_protein ∧
    (⟨[("tofu", 1)], 200, 10, 5, 5, 3, 1 / 10, 0, true⟩ : Sol).total_protein ≤
      10 * (1 + (⟨[("tofu", 1)], 200, 10, 5, 5, 3, 1 / 10, 0, true⟩ : Sol).tolerance_used) :=
  claim_C8 [tofuF] [] noClose 200 10 false none [] (1 / 10) 4 3 (1 / 2) 10 10 5
    ⟨[("tofu", 1)], 200, 10, 5, 5, 3, 1 / 10, 0, true⟩ []
    (by with_unfolding_all decide) _ (List.mem_cons_self _ _) rfl

/-- C10: the serving_step parameter has no effect on the result of
suggest_meal; the enumerated serving counts are exactly the integers from 1
to the per-item cap; and every quantity in any returned Solution is a
positive integer. -/
theorem claim_C10 (foods : List Food) (PAIRS : List (String × List String))
    (close : String → String → Bool) (calorie_goal protein_goal : ℚ) (vegan : Bool)
    (allergen : Option String) (excluded_meats : List String) (tolerance : ℚ)
    (max_items : ℕ) (max_servings serving_step₁ serving_step₂ : ℚ) (top_k : ℕ)
    (protein_window : ℚ) (max_alternatives : ℕ) :
    (suggest_meal foods PAIRS close calorie_goal protein_goal vegan allergen
      excluded_meats tolerance max_items max_servings serving_step₁ top_k protein_window
      max_alternatives =
     suggest_meal foods PAIRS close calorie_goal protein_goal vegan allergen
      excluded_meats tolerance max_items max_servings serving_step₂ top_k protein_window
      max_alternatives) ∧
    (∀ f : Food, ∀ q : ℚ, q ∈ serving_values_for_item max_servings f ↔
      ∃ n : ℕ, 1 ≤ n ∧ n ≤ max_servings_for_item max_servings f ∧ q = (n : ℚ)) ∧
    (∀ b alts, suggest_meal foods PAIRS close calorie_goal protein_goal vegan allergen
        excluded_meats tolerance max_items max_servings serving_step₁ top_k protein_window
        max_alternatives = some (b, alts) →
      ∀ s ∈ b :: alts, ∀ it ∈ s.items, ∃ n : ℕ, 1 ≤ n ∧ it.2 = (n : ℚ)) := by
  refine ⟨rfl, fun f q => mem_serving_values, ?_⟩
  intro b alts h s hs it hit
  obtain ⟨tol, _, hmem⟩ := suggest_meal_origin h s hs
  obtain ⟨n, h1, _, hq⟩ := sol_items_qty hmem it hit
  exact ⟨n, h1, hq⟩

theorem normAllergen_some (a : String) : normAllergen (some a) = pyLower (pyTrim a) := by
  show (if a = "" then "" else pyLower (pyTrim a)) = pyLower (pyTrim a)
  by_cases h : a = ""
  · rw [if_pos h, h]
    rfl
  · rw [if_neg h]

/-- C5 counterexample: the filter normalizes its inputs beyond the claim's
wording. An allergen string with trailing whitespace is stripped before the
substring test (the claim's plain lowercase form would not match), and an
excluded token is lowercased before matching (the claim's as-given token
would not match), so the returned subset differs from the claimed one. -/
theorem claim_C5_counterexample :
    _filter_candidates [cheeseMilkF] false (some "milk ") [] ≠
      filter_claimed [cheeseMilkF] false (some "milk ") [] ∧
    _filter_candidates [beefStewF] false none ["BEEF"] ≠
      filter_claimed [beefStewF] false none ["BEEF"] := by
  constructor
  · with_unfolding_all decide
  · with_unfolding_all decide

/-- C5 amended: the eligibility filter returns exactly the subset of
catalog items such that vegan_only implies is_vegan; the whitespace-trimmed
lowercase form of a given allergen string, when non-empty, is not a
substring of the item's lowercase allergen text; and each excluded token's
lowercase form is not a substring of the item's lowercase name nor of its
lowercase allergen text. An empty result is an empty list, not an error. -/
theorem claim_C5_amended (foods : List Food) (vegan : Bool) (allergen : Option String)
    (excluded_meats : List String) :
    List.Sublist (_filter_candidates foods vegan allergen excluded_meats) foods ∧
    (∀ f, f ∈ _filter_candidates foods vegan allergen excluded_meats ↔
      (f ∈ foods ∧ (vegan = true → f.vegan = true) ∧
       (∀ a, allergen = some a → pyLower (pyTrim a) ≠ "" →
          pySub (pyLower (pyTrim a)) (pyLower f.allergens) = false) ∧
       (∀ t ∈ excluded_meats, pySub (pyLower t) (pyLower f.name) = false ∧
          pySub (pyLower t) (pyLower f.allergens) = false))) := by
  constructor
  · unfold _filter_candidates
    exact List.filter_sublist _
  intro f
  simp only [_filter_candidates, List.mem_filter]
  refine and_congr_right fun _ => ?_
  by_cases hA : (vegan && !f.vegan) = true
  · rw [if_pos hA]
    constructor
    · intro h; exact absurd h (by decide)
    · rintro ⟨h1, -, -⟩
      rw [Bool.and_eq_true, Bool.not_eq_true'] at hA
      have hv := h1 hA.1
      rw [hv] at hA
      exact absurd hA.2 (by decide)
  · rw [if_neg hA]
    have hP1 : vegan = true → f.vegan = true := by
      intro hv
      rw [hv] at hA
      cases hfv : f.vegan with
      | true => rfl
      | false => rw [hfv] at hA; exact absurd rfl hA
    by_cases hB : ((normAllergen allergen ≠ "") &&
        pySub (normAllergen allergen) (pyLower f.allergens)) = true
    · rw [if_pos hB]
      constructor
      · intro h; exact absurd h (by decide)
      · rintro ⟨-, h2, -⟩
        rw [Bool.and_eq_true, decide_eq_true_iff] at hB
        obtain ⟨hne, hsub⟩ := hB
        cases allergen with
        | none => exact absurd rfl hne
        | some a =>
          rw [normAllergen_some] at hne hsub
          rw [h2 a rfl hne] at hsub
          exact absurd hsub (by decide)
    · rw [if_neg hB]
      have hP2 : ∀ a, allergen = some a → pyLower (pyTrim a) ≠ "" →
          pySub (pyLower (pyTrim a)) (pyLower f.allergens) = false := by
        intro a ha hne
        subst ha
        rw [normAllergen_some] at hB
        cases hps : pySub (pyLower (pyTrim a)) (pyLower f.allergens) with
        | false => rfl
        | true =>
          exfalso
          apply hB
          rw [hps, Bool.and_true]
          exact decide_eq_true hne
      by_cases hC : ((excluded_meats.map pyLower).any fun m =>
          pySub m (pyLower f.name) || pySub m (pyLower f.allergens)) = true
      · rw [if_pos hC]
        constructor
        · intro h; exact absurd h (by decide)
        · rintro ⟨-, -, h3⟩
          obtain ⟨m, hm, hmb⟩ := List.any_eq_true.mp hC
          obtain ⟨t, ht, rfl⟩ := List.mem_map.mp hm
          rw [Bool.or_eq_true] at hmb
          obtain ⟨hn, hal⟩ := h3 t ht
          rcases hmb with hh | hh
          · rw [hn] at hh; exact absurd hh (by decide)
          · rw [hal] at hh; exact absurd hh (by decide)
      · rw [if_neg hC]
        constructor
        · intro _
          refine ⟨hP1, hP2, fun t ht => ⟨?_, ?_⟩⟩
          · cases hx : pySub (pyLower t) (pyLower f.name) with
            | false => rfl
            | true =>
              exact absurd (List.any_eq_true.mpr ⟨pyLower t,
                List.mem_map_of_mem pyLower ht, by rw [hx]; rfl⟩) hC
          · cases hx : pySub (pyLower t) (pyLower f.allergens) with
            | false => rfl
            | true =>
              exact absurd (List.any_eq_true.mpr ⟨pyLower t,
                List.mem_map_of_mem pyLower ht, by rw [hx, Bool.or_true]⟩) hC
        · intro _; rfl

theorem claim_C5_witness :
    cheeseMilkF ∈ _filter_candidates [cheeseMilkF] false (some "soy") ["beef"] ↔
      (cheeseMilkF ∈ [cheeseMilkF] ∧ (false = true → cheeseMilkF.vegan = true) ∧
       (∀ a, (some "soy" : Option String) = some a → pyLower (pyTrim a) ≠ "" →
          pySub (pyLower (pyTrim a)) (pyLower cheeseMilkF.allergens) = false) ∧
       (∀ t ∈ ["beef"], pySub (pyLower t) (pyLower cheeseMilkF.name) = false ∧
          pySub (pyLower t) (pyLower cheeseMilkF.allergens) = false)) :=
  (claim_C5_amended [cheeseMilkF] false (some "soy") ["beef"]).2 cheeseMilkF

theorem dedupFirstGo_mem :
    ∀ (seen l : List String) (x : String),
      x ∈ dedupFirstGo seen l ↔ (x ∈ l ∧ x ∉ seen)
  | seen, [], x => by simp [dedupFirstGo]
  | seen, t :: rest, x => by
    simp only [dedupFirstGo]
    by_cases ht : t ∈ seen
    · rw [if_pos ht, dedupFirstGo_mem seen rest x]
      constructor
      · rintro ⟨h1, h2⟩
        exact ⟨List.mem_cons_of_mem _ h1, h2⟩
      · rintro ⟨h1, h2⟩
        rcases List.mem_cons.mp h1 with h1 | h1
        · subst h1; exact absurd ht h2
        · exact ⟨h1, h2⟩
    · rw [if_neg ht]
      constructor
      · intro hx
        rcases List.mem_cons.mp hx with hx | hx
        · subst hx; exact ⟨List.mem_cons_self _ _, ht⟩
        · obtain ⟨h1, h2⟩ := (dedupFirstGo_mem (t :: seen) rest x).mp hx
          exact ⟨List.mem_cons_of_mem _ h1,
            fun hs => h2 (List.mem_cons_of_mem _ hs)⟩
      · rintro ⟨h1, h2⟩
        rcases List.mem_cons.mp h1 with h1 | h1
        · subst h1; exact List.mem_cons_self _ _
        · by_cases hxt : x = t
          · subst hxt; exact List.mem_cons_self _ _
          · exact List.mem_cons_of_mem _ ((dedupFirstGo_mem (t :: seen) rest x).mpr
              ⟨h1, fun hs => (List.mem_cons.mp hs).elim hxt h2⟩)

theorem dedupFirstGo_nodup :
    ∀ (seen l : List String), (dedupFirstGo seen l).Nodup
  | seen, [] => by simp [dedupFirstGo]
  | seen, t :: rest => by
    simp only [dedupFirstGo]
    by_cases ht : t ∈ seen
    · rw [if_pos ht]; exact dedupFirstGo_nodup seen rest
    · rw [if_neg ht]
      refine List.nodup_cons.mpr ⟨?_, dedupFirstGo_nodup (t :: seen) rest⟩
      intro hmem
      exact ((dedupFirstGo_mem (t :: seen) rest t).mp hmem).2 (List.mem_cons_self _ _)

/-- C6 counterexample: suggest_meal applies the excluded tokens to the
eligibility filter as given, without routing them through
expand_excluded_items first. Excluding milk keeps an item named cheese,
while the claimed (expanded) pipeline would exclude it and return none. -/
theorem claim_C6_counterexample :
    suggest_meal [cheeseF] PAIRS_default noClose 100 5 false none ["milk"]
      (1 / 10) 4 3 (1 / 2) 10 10 5 ≠
    suggest_meal_claimed [cheeseF] PAIRS_default noClose 100 5 false none ["milk"]
      (1 / 10) 4 3 (1 / 2) 10 10 5 := by
  with_unfolding_all decide

/-- C6 amended: expand_excluded_items performs the category expansion with
first-occurrence order-preserving de-duplication (a beef exclusion also
yields hamburger, sausage, pepperoni; duplicates are dropped), but
suggest_meal never invokes it: the tokens reach the eligibility filter
unexpanded, so excluding milk does not exclude an item named cheese. -/
theorem claim_C6_amended :
    (expand_excluded_items ["beef", "pork", "beef"] =
      ["beef", "meat", "hamburger", "burger", "sausage", "pepperoni", "peperoni",
       "pork", "ham"]) ∧
    (∀ selected, (expand_excluded_items selected).Nodup) ∧
    (∀ selected x, x ∈ expand_excluded_items selected ↔
      x ∈ selected.flatMap (fun item =>
        if pyLower (pyTrim item) = "" then []
        else
          match EXCLUSION_TOKEN_MAP.find? (fun p => p.1 == pyLower (pyTrim item)) with
          | some p => if p.2.isEmpty then [pyLower (pyTrim item)] else p.2
          | none => [pyLower (pyTrim item)])) ∧
    ((suggest_meal [cheeseF] PAIRS_default noClose 100 5 false none ["milk"]
        (1 / 10) 4 3 (1 / 2) 10 10 5).map (fun p => p.1.items.map Prod.fst) =
      some ["cheese"]) := by
  refine ⟨by with_unfolding_all decide, ?_, ?_, by with_unfolding_all decide⟩
  · intro selected
    unfold expand_excluded_items
    exact dedupFirstGo_nodup [] _
  · intro selected x
    unfold expand_excluded_items
    rw [dedupFirstGo_mem]
    simp only [List.not_mem_nil, not_false_iff, and_true]

theorem claim_C6_witness :
    (expand_excluded_items ["milk", "Milk ", "soy"]).Nodup :=
  claim_C6_amended.2.1 ["milk", "Milk ", "soy"]

theorem fallback_iff (foods : List Food) (item : String) :
    (match foods.find? (fun n => pyLower n.name == item) with
     | some canonical => decide (400 ≤ canonical.calories)
     | none => false) = true ↔
    ∃ f, foods.find? (fun n => pyLower n.name == item) = some f ∧ 400 ≤ f.calories := by
  cases hf : foods.find? (fun n => pyLower n.name == item) with
  | none => simp
  | some c =>
    simp only [decide_eq_true_iff, Option.some.injEq]
    constructor
    · intro hc; exact ⟨c, rfl, hc⟩
    · rintro ⟨f, rfl, hc⟩; exact hc

/-- C3: characterization of the compatibility rule engine. A companion is
present exactly when it is a substring of some lowercased item name or some
whitespace/hyphen token of an item name passes the fuzzy acceptance close
(the cutoff-0.8 difflib matcher, abstracted as a parameter); a combination
passes pairs_ok exactly when every pairing-table lead occurring inside some
lowercased item name has a present companion, or some item containing the
lead resolves in the catalog to an entry with at least 400 kcal. -/
theorem claim_C3 (foods : List Food) (PAIRS : List (String × List String))
    (close : String → String → Bool) (combo : List String) :
    (∀ companion, companion_present close (combo.map pyLower) companion = true ↔
      ((∃ item ∈ combo.map pyLower, pySub companion item = true) ∨
       (∃ w ∈ (combo.map pyLower).flatMap pyTokens, close companion w = true))) ∧
    (pairs_ok foods PAIRS close combo = true ↔
      ∀ kv ∈ PAIRS, (∃ item ∈ combo.map pyLower, pySub kv.1 item = true) →
        ((∃ companion ∈ kv.2,
            companion_present close (combo.map pyLower) companion = true) ∨
         (∃ item ∈ combo.map pyLower, pySub kv.1 item = true ∧
            ∃ f, foods.find? (fun n => pyLower n.name == item) = some f ∧
              400 ≤ f.calories))) := by
  constructor
  · intro companion
    unfold companion_present
    rw [Bool.or_eq_true, List.any_eq_true, List.any_eq_true]
  · unfold pairs_ok
    rw [List.all_eq_true]
    refine forall_congr' fun kv => imp_congr_right fun _ => ?_
    by_cases hc : ((combo.map pyLower).any fun item => pySub kv.1 item) = true
    · rw [if_pos hc]
      have hcProp : ∃ item ∈ combo.map pyLower, pySub kv.1 item = true :=
        List.any_eq_true.mp hc
      rw [Bool.or_eq_true, List.any_eq_true, List.any_eq_true]
      constructor
      · rintro (h | h)
        · exact fun _ => Or.inl h
        · refine fun _ => Or.inr ?_
          obtain ⟨item, hitem, hb⟩ := h
          rw [Bool.and_eq_true] at hb
          exact ⟨item, hitem, hb.1, (fallback_iff foods item).mp hb.2⟩
      · intro h
        rcases h hcProp with h | h
        · exact Or.inl h
        · obtain ⟨item, hitem, h1, h2⟩ := h
          refine Or.inr ⟨item, hitem, ?_⟩
          rw [Bool.and_eq_true]
          exact ⟨h1, (fallback_iff foods item).mpr h2⟩
    · rw [if_neg hc]
      constructor
      · intro _ hcond
        exact absurd (List.any_eq_true.mpr hcond) hc
      · intro _; rfl

theorem claim_C3_witness :
    pairs_ok [cheeseF] PAIRS_default noClose ["cheese"] = true :=
  ((claim_C3 [cheeseF] PAIRS_default noClose ["cheese"]).2).mpr
    (by with_unfolding_all decide)

theorem sorted_head_min {b : Sol} {rest : List Sol}
    (h : List.Sorted (fun a b : Sol => a.score ≤ b.score) (b :: rest)) :
    ∀ s ∈ b :: rest, b.score ≤ s.score := by
  intro s hs
  rcases List.mem_cons.mp hs with hs | hs
  · rw [hs]
  · exact List.rel_of_sorted_cons h s hs

theorem runTiers_cons_pos {foods : List Food} {PAIRS : List (String × List String)}
    {close : String → String → Bool} {cg pg : ℚ} {mi : ℕ} {ms : ℚ}
    {names : List String} {tol : ℚ} {rest : List ℚ}
    (h : (tierSols foods PAIRS close cg pg mi ms names tol).filter
      (fun s => s.within_tolerance) ≠ []) :
    runTiers foods PAIRS close cg pg mi ms names (tol :: rest) =
      ((tierSols foods PAIRS close cg pg mi ms names tol).filter
        (fun s => s.within_tolerance),
       tierSols foods PAIRS close cg pg mi ms names tol) := by
  simp only [runTiers]
  rw [if_neg (by rw [List.isEmpty_iff]; exact h)]

theorem runTiers_cons_neg {foods : List Food} {PAIRS : List (String × List String)}
    {close : String → String → Bool} {cg pg : ℚ} {mi : ℕ} {ms : ℚ}
    {names : List String} {tol : ℚ} {rest : List ℚ}
    (h : (tierSols foods PAIRS close cg pg mi ms names tol).filter
      (fun s => s.within_tolerance) = []) :
    runTiers foods PAIRS close cg pg mi ms names (tol :: rest) =
      ((runTiers foods PAIRS close cg pg mi ms names rest).1,
       tierSols foods PAIRS close cg pg mi ms names tol ++
         (runTiers foods PAIRS close cg pg mi ms names rest).2) := by
  simp only [runTiers]
  rw [if_pos (by rw [List.isEmpty_iff]; exact h), h, List.nil_append]

theorem runTiers_single {foods : List Food} {PAIRS : List (String × List String)}
    {close : String → String → Bool} {cg pg : ℚ} {mi : ℕ} {ms : ℚ}
    {names : List String} (tol : ℚ) :
    runTiers foods PAIRS close cg pg mi ms names [tol] =
      ((tierSols foods PAIRS close cg pg mi ms names tol).filter
        (fun s => s.within_tolerance),
       tierSols foods PAIRS close cg pg mi ms names tol) := by
  by_cases h : (tierSols foods PAIRS close cg pg mi ms names tol).filter
      (fun s => s.within_tolerance) = []
  · rw [runTiers_cons_neg h]
    show (([] : List Sol), tierSols foods PAIRS close cg pg mi ms names tol ++ []) = _
    rw [List.append_nil, h]
  · exact runTiers_cons_pos h

theorem rankedNames_eq_nil {foods : List Food} {vegan : Bool} {allergen : Option String}
    {ex : List String} {tk : ℕ}
    (h : _filter_candidates foods vegan allergen ex = []) :
    rankedNames foods vegan allergen ex tk = [] := by
  unfold rankedNames
  rw [h]
  simp

theorem tierSols_names_nil {foods : List Food} {PAIRS : List (String × List String)}
    {close : String → String → Bool} {cg pg : ℚ} {mi : ℕ} {ms : ℚ} (tol : ℚ) :
    tierSols foods PAIRS close cg pg mi ms [] tol = [] := by
  unfold tierSols
  rw [List.length_nil, Nat.min_zero]
  rfl

theorem runTiers_names_nil {foods : List Food} {PAIRS : List (String × List String)}
    {close : String → String → Bool} {cg pg : ℚ} {mi : ℕ} {ms : ℚ} :
    ∀ ts : List ℚ, runTiers foods PAIRS close cg pg mi ms [] ts = ([], [])
  | [] => rfl
  | tol :: rest => by
    rw [runTiers_cons_neg (by rw [tierSols_names_nil]; rfl), runTiers_names_nil rest,
      tierSols_names_nil]
    rfl

theorem searchPool_fallback {foods : List Food} {PAIRS : List (String × List String)}
    {close : String → String → Bool} {cg pg tolerance : ℚ} {mi : ℕ} {ms : ℚ}
    {names : List String}
    (hfst : (runTiers foods PAIRS close cg pg mi ms names
      [tolerance, tolerance * 2, tolerance * 3]).1 = []) :
    searchPool foods PAIRS close cg pg tolerance mi ms names =
      sortScore (_dedupe (runTiers foods PAIRS close cg pg mi ms names
        [tolerance, tolerance * 2, tolerance * 3]).2) := by
  unfold searchPool
  rw [hfst]
  rfl

/-- C2: the relaxation controller tries exactly the tolerances tolerance,
2 tolerance, 3 tolerance in that order; a tier producing an accepted
(within-tolerance) solution stops the loop with exactly that tier's pools;
when no tier accepts, the result is the best-scored solution of the
all-candidates pool accumulated over all three tiers, and none when that
pool is empty. -/
theorem claim_C2 (foods : List Food) (PAIRS : List (String × List String))
    (close : String → String → Bool) (calorie_goal protein_goal : ℚ) (vegan : Bool)
    (allergen : Option String) (excluded_meats : List String) (tolerance : ℚ)
    (max_items : ℕ) (max_servings serving_step : ℚ) (top_k : ℕ) (protein_window : ℚ)
    (max_alternatives : ℕ) :
    ((tierSols foods PAIRS close calorie_goal protein_goal max_items max_servings
        (rankedNames foods vegan allergen excluded_meats top_k) tolerance).filter
          (fun s => s.within_tolerance) ≠ [] →
      runTiers foods PAIRS close calorie_goal protein_goal max_items max_servings
        (rankedNames foods vegan allergen excluded_meats top_k)
        [tolerance, tolerance * 2, tolerance * 3] =
        ((tierSols foods PAIRS close calorie_goal protein_goal max_items max_servings
          (rankedNames foods vegan allergen excluded_meats top_k) tolerance).filter
            (fun s => s.within_tolerance),
         tierSols foods PAIRS close calorie_goal protein_goal max_items max_servings
          (rankedNames foods vegan allergen excluded_meats top_k) tolerance)) ∧
    ((tierSols foods PAIRS close calorie_goal protein_goal max_items max_servings
        (rankedNames foods vegan allergen excluded_meats top_k) tolerance).filter
          (fun s => s.within_tolerance) = [] →
     (tierSols foods PAIRS close calorie_goal protein_goal max_items max_servings
        (rankedNames foods vegan allergen excluded_meats top_k) (tolerance * 2)).filter
          (fun s => s.within_tolerance) ≠ [] →
      runTiers foods PAIRS close calorie_goal protein_goal max_items max_servings
        (rankedNames foods vegan allergen excluded_meats top_k)
        [tolerance, tolerance * 2, tolerance * 3] =
        ((tierSols foods PAIRS close calorie_goal protein_goal max_items max_servings
          (rankedNames foods vegan allergen excluded_meats top_k) (tolerance * 2)).filter
            (fun s => s.within_tolerance),
         tierSols foods PAIRS close calorie_goal protein_goal max_items max_servings
          (rankedNames foods vegan allergen excluded_meats top_k) tolerance ++
         tierSols foods PAIRS close calorie_goal protein_goal max_items max_servings
          (rankedNames foods vegan allergen excluded_meats top_k) (tolerance * 2))) ∧
    ((tierSols foods PAIRS close calorie_goal protein_goal max_items max_servings
        (rankedNames foods vegan allergen excluded_meats top_k) tolerance).filter
          (fun s => s.within_tolerance) = [] →
     (tierSols foods PAIRS close calorie_goal protein_goal max_items max_servings
        (rankedNames foods vegan allergen excluded_meats top_k) (tolerance * 2)).filter
          (fun s => s.within_tolerance) = [] →
      runTiers foods PAIRS close calorie_goal protein_goal max_items max_servings
        (rankedNames foods vegan allergen excluded_meats top_k)
        [tolerance, tolerance * 2, tolerance * 3] =
        ((tierSols foods PAIRS close calorie_goal protein_goal max_items max_servings
          (rankedNames foods vegan allergen excluded_meats top_k) (tolerance * 3)).filter
            (fun s => s.within_tolerance),
         tierSols foods PAIRS close calorie_goal protein_goal max_items max_servings
          (rankedNames foods vegan allergen excluded_meats top_k) tolerance ++
         (tierSols foods PAIRS close calorie_goal protein_goal max_items max_servings
          (rankedNames foods vegan allergen excluded_meats top_k) (tolerance * 2) ++
          tierSols foods PAIRS close calorie_goal protein_goal max_items max_servings
          (rankedNames foods vegan allergen excluded_meats top_k) (tolerance * 3)))) ∧
    ((∀ tol ∈ [tolerance, tolerance * 2, tolerance * 3],
        (tierSols foods PAIRS close calorie_goal protein_goal max_items max_servings
          (rankedNames foods vegan allergen excluded_meats top_k) tol).filter
            (fun s => s.within_tolerance) = []) →
      ((suggest_meal foods PAIRS close calorie_goal protein_goal vegan allergen
          excluded_meats tolerance max_items max_servings serving_step top_k
          protein_window max_alternatives = none ↔
        _dedupe (runTiers foods PAIRS close calorie_goal protein_goal max_items
          max_servings (rankedNames foods vegan allergen excluded_meats top_k)
          [tolerance, tolerance * 2, tolerance * 3]).2 = []) ∧
       (∀ b alts, suggest_meal foods PAIRS close calorie_goal protein_goal vegan allergen
          excluded_meats tolerance max_items max_servings serving_step top_k
          protein_window max_alternatives = some (b, alts) →
         b ∈ (runTiers foods PAIRS close calorie_goal protein_goal max_items max_servings
            (rankedNames foods vegan allergen excluded_meats top_k)
            [tolerance, tolerance * 2, tolerance * 3]).2 ∧
         ∀ e ∈ (runTiers foods PAIRS close calorie_goal protein_goal max_items
            max_servings (rankedNames foods vegan allergen excluded_meats top_k)
            [tolerance, tolerance * 2, tolerance * 3]).2, b.score ≤ e.score))) := by
  refine ⟨fun hne => runTiers_cons_pos hne,
    fun he1 hne2 => ?_, fun he1 he2 => ?_, fun hall => ?_⟩
  · rw [runTiers_cons_neg he1, runTiers_cons_pos hne2]
  · rw [runTiers_cons_neg he1, runTiers_cons_neg he2, runTiers_single]
  · have he1 := hall tolerance (by simp)
    have he2 := hall (tolerance * 2) (by simp)
    have he3 := hall (tolerance * 3) (by simp)
    have hfst : (runTiers foods PAIRS close calorie_goal protein_goal max_items
        max_servings (rankedNames foods vegan allergen excluded_meats top_k)
        [tolerance, tolerance * 2, tolerance * 3]).1 = [] := by
      rw [runTiers_cons_neg he1, runTiers_cons_neg he2, runTiers_single]
      exact he3
    have hsp := searchPool_fallback hfst
    constructor
    · constructor
      · intro hnone
        unfold suggest_meal at hnone
        split at hnone
        · next hcand =>
          rw [List.isEmpty_iff] at hcand
          rw [rankedNames_eq_nil hcand, runTiers_names_nil]
          rfl
        · rcases hp : searchPool foods PAIRS close calorie_goal protein_goal tolerance
              max_items max_servings (rankedNames foods vegan allergen excluded_meats
                top_k) with _ | ⟨best, rest⟩
          · rw [hsp, sortScore] at hp
            have hkey := List.perm_insertionSort (fun a b : Sol => a.score ≤ b.score)
              (_dedupe (runTiers foods PAIRS close calorie_goal protein_goal max_items
                max_servings (rankedNames foods vegan allergen excluded_meats top_k)
                [tolerance, tolerance * 2, tolerance * 3]).2)
            rw [hp] at hkey
            exact hkey.symm.eq_nil
          · rw [hp] at hnone
            cases hnone
      · intro hd
        unfold suggest_meal
        split
        · rfl
        · have hsp2 : searchPool foods PAIRS close calorie_goal protein_goal tolerance
              max_items max_servings (rankedNames foods vegan allergen excluded_meats
                top_k) = [] := by
            rw [hsp, hd]
            rfl
          rw [hsp2]
    · intro b alts h
      obtain ⟨rest, hp, -⟩ := suggest_meal_destruct h
      have hbmem : b ∈ searchPool foods PAIRS close calorie_goal protein_goal tolerance
          max_items max_servings (rankedNames foods vegan allergen excluded_meats top_k) :=
        hp ▸ List.mem_cons_self _ _
      constructor
      · rw [hsp] at hbmem
        rw [sortScore, List.mem_insertionSort] at hbmem
        exact mem_of_mem_dedupe hbmem
      · intro e he
        obtain ⟨d, hd, -, hds⟩ := dedupe_min e he
        have hdmem : d ∈ searchPool foods PAIRS close calorie_goal protein_goal tolerance
            max_items max_servings (rankedNames foods vegan allergen excluded_meats
              top_k) := by
          rw [hsp, sortScore, List.mem_insertionSort]
          exact hd
        have hmin := sorted_head_min (hp ▸ searchPool_sorted foods PAIRS close
          calorie_goal protein_goal tolerance max_items max_servings
          (rankedNames foods vegan allergen excluded_meats top_k)) d (hp ▸ hdmem)
        exact le_trans hmin hds

theorem claim_C2_witness :
    runTiers [tofuF] [] noClose 200 10 4 3 (rankedNames [tofuF] false none [] 10)
      [1 / 10, 1 / 10 * 2, 1 / 10 * 3] =
      ((tierSols [tofuF] [] noClose 200 10 4 3 (rankedNames [tofuF] false none [] 10)
        (1 / 10)).filter (fun s => s.within_tolerance),
       tierSols [tofuF] [] noClose 200 10 4 3 (rankedNames [tofuF] false none [] 10)
        (1 / 10)) :=
  (claim_C2 [tofuF] [] noClose 200 10 false none [] (1 / 10) 4 3 (1 / 2) 10 10 5).1
    (by with_unfolding_all decide)

/-- C9: suggest_meal is a total function into an optional value: none is the
only negative signal. An empty post-filter candidate set yields none (in
particular the spec's one non-vegan item with vegan_only scenario), and an
empty search pool (no admissible combination at all) also yields none. -/
theorem claim_C9 (foods : List Food) (PAIRS : List (String × List String))
    (close : String → String → Bool) (calorie_goal protein_goal : ℚ) (vegan : Bool)
    (allergen : Option String) (excluded_meats : List String) (tolerance : ℚ)
    (max_items : ℕ) (max_servings serving_step : ℚ) (top_k : ℕ) (protein_window : ℚ)
    (max_alternatives : ℕ) :
    (_filter_candidates foods vegan allergen excluded_meats = [] →
      suggest_meal foods PAIRS close calorie_goal protein_goal vegan allergen
        excluded_meats tolerance max_items max_servings serving_step top_k
        protein_window max_alternatives = none) ∧
    (searchPool foods PAIRS close calorie_goal protein_goal tolerance max_items
        max_servings (rankedNames foods vegan allergen excluded_meats top_k) = [] →
      suggest_meal foods PAIRS close calorie_goal protein_goal vegan allergen
        excluded_meats tolerance max_items max_servings serving_step top_k
        protein_window max_alternatives = none) ∧
    (suggest_meal foods PAIRS close calorie_goal protein_goal vegan allergen
        excluded_meats tolerance max_items max_servings serving_step top_k
        protein_window max_alternatives = none ∨
      ∃ b alts, suggest_meal foods PAIRS close calorie_goal protein_goal vegan allergen
        excluded_meats tolerance max_items max_servings serving_step top_k
        protein_window max_alternatives = some (b, alts)) ∧
    (suggest_meal [itemAF] [] noClose 100 5 true none [] (1 / 10) 4 3 (1 / 2)
        10 10 5 = none) := by
  refine ⟨?_, ?_, ?_, by with_unfolding_all decide⟩
  · intro h
    unfold suggest_meal
    rw [h]
    rfl
  · intro h
    unfold suggest_meal
    split
    · rfl
    · rw [h]
  · cases h : suggest_meal foods PAIRS close calorie_goal protein_goal vegan allergen
        excluded_meats tolerance max_items max_servings serving_step top_k
        protein_window max_alternatives with
    | none => exact Or.inl rfl
    | some p =>
      obtain ⟨b1, a1⟩ := p
      exact Or.inr ⟨b1, a1, rfl⟩

theorem claim_C9_witness :
    suggest_meal [cheeseMilkF] [] noClose 100 5 false (some "milk") [] (1 / 10) 4 3
      (1 / 2) 10 10 5 = none :=
  (claim_C9 [cheeseMilkF] [] noClose 100 5 false (some "milk") [] (1 / 10) 4 3 (1 / 2)
    10 10 5).1 (by with_unfolding_all decide)

theorem sig_sorted (s : Sol) :
    List.Sorted (fun x y : String => x ≤ y) (_solution_signature s) :=
  List.sorted_insertionSort _ _

theorem sig_mem (s : Sol) (nm : String) :
    nm ∈ _solution_signature s ↔ nm ∈ s.items.map Prod.fst :=
  List.mem_insertionSort _

theorem mkSolution_names_eq {foods : List Food} {cg pg tol : ℚ} {combo : List String}
    {servings : List ℚ} (hlen : servings.length = combo.length) :
    (mkSolution foods cg pg tol combo servings).items.map Prod.fst = combo := by
  rw [mkSolution_items, List.map_map]
  exact List.map_fst_zip combo servings hlen.ge

theorem sortScore_sig_nodup (l : List Sol)
    (h : (l.map _solution_signature).Nodup) :
    ((sortScore l).map _solution_signature).Nodup :=
  (((List.perm_insertionSort _ l).map _solution_signature).nodup_iff).mpr h

/-- C7 counterexample: with max_alternatives = 0 the walk appends one
alternative before checking the bound, so the attached list has length one,
exceeding max_alternatives. -/
theorem claim_C7_counterexample :
    (suggest_meal [alphaF, bravoF] [] noClose 200 10 false none [] (1 / 10) 1 3
      (1 / 2) 10 10 0).map (fun p => p.2.length) = some 1 := by
  with_unfolding_all decide

/-- C7 amended: a Solution's identity signature is the sorted list of its
item names (distinct because a combination never repeats an item),
quantities excluded; each pool keeps only the lowest-score Solution per
signature; the best is the minimum-score element of the deduplicated
accepted pool, or of the deduplicated all-candidates pool when the former
is empty; and when max_alternatives is at least 1 the attached alternatives
hold at most max_alternatives Solutions, collected in score order, each
within protein_window grams of the best Solution's protein, with no two
entries of best :: alternatives sharing a signature. (With
max_alternatives = 0 the source appends one alternative before testing the
bound, hence the lower bound hypothesis.) -/
theorem claim_C7 (foods : List Food) (PAIRS : List (String × List String))
    (close : String → String → Bool) (calorie_goal protein_goal : ℚ) (vegan : Bool)
    (allergen : Option String) (excluded_meats : List String) (tolerance : ℚ)
    (max_items : ℕ) (max_servings serving_step : ℚ) (top_k : ℕ) (protein_window : ℚ)
    (max_alternatives : ℕ) (b : Sol) (alts : List Sol)
    (hA : 1 ≤ max_alternatives)
    (hnd : (foods.map Food.name).Nodup)
    (h : suggest_meal foods PAIRS close calorie_goal protein_goal vegan allergen
      excluded_meats tolerance max_items max_servings serving_step top_k protein_window
      max_alternatives = some (b, alts)) :
    (∀ s ∈ b :: alts,
        List.Sorted (fun x y : String => x ≤ y) (_solution_signature s) ∧
        (_solution_signature s).Nodup ∧
        (∀ nm, nm ∈ _solution_signature s ↔ nm ∈ s.items.map Prod.fst)) ∧
    (b ∈ searchPool foods PAIRS close calorie_goal protein_goal tolerance max_items
        max_servings (rankedNames foods vegan allergen excluded_meats top_k) ∧
     ∀ s ∈ searchPool foods PAIRS close calorie_goal protein_goal tolerance max_items
        max_servings (rankedNames foods vegan allergen excluded_meats top_k),
        b.score ≤ s.score) ∧
    (∀ e ∈ (runTiers foods PAIRS close calorie_goal protein_goal max_items max_servings
        (rankedNames foods vegan allergen excluded_meats top_k)
        [tolerance, tolerance * 2, tolerance * 3]).1,
      ∃ d ∈ _dedupe (runTiers foods PAIRS close calorie_goal protein_goal max_items
        max_servings (rankedNames foods vegan allergen excluded_meats top_k)
        [tolerance, tolerance * 2, tolerance * 3]).1,
        _solution_signature d = _solution_signature e ∧ d.score ≤ e.score) ∧
    (∀ e ∈ (runTiers foods PAIRS close calorie_goal protein_goal max_items max_servings
        (rankedNames foods vegan allergen excluded_meats top_k)
        [tolerance, tolerance * 2, tolerance * 3]).2,
      ∃ d ∈ _dedupe (runTiers foods PAIRS close calorie_goal protein_goal max_items
        max_servings (rankedNames foods vegan allergen excluded_meats top_k)
        [tolerance, tolerance * 2, tolerance * 3]).2,
        _solution_signature d = _solution_signature e ∧ d.score ≤ e.score) ∧
    (((searchPool foods PAIRS close calorie_goal protein_goal tolerance max_items
        max_servings (rankedNames foods vegan allergen excluded_meats top_k)).map
        _solution_signature).Nodup) ∧
    (_dedupe (runTiers foods PAIRS close calorie_goal protein_goal max_items
        max_servings (rankedNames foods vegan allergen excluded_meats top_k)
        [tolerance, tolerance * 2, tolerance * 3]).1 ≠ [] →
      searchPool foods PAIRS close calorie_goal protein_goal tolerance max_items
        max_servings (rankedNames foods vegan allergen excluded_meats top_k) =
        sortScore (_dedupe (runTiers foods PAIRS close calorie_goal protein_goal
          max_items max_servings (rankedNames foods vegan allergen excluded_meats top_k)
          [tolerance, tolerance * 2, tolerance * 3]).1)) ∧
    (_dedupe (runTiers foods PAIRS close calorie_goal protein_goal max_items
        max_servings (rankedNames foods vegan allergen excluded_meats top_k)
        [tolerance, tolerance * 2, tolerance * 3]).1 = [] →
      searchPool foods PAIRS close calorie_goal protein_goal tolerance max_items
        max_servings (rankedNames foods vegan allergen excluded_meats top_k) =
        sortScore (_dedupe (runTiers foods PAIRS close calorie_goal protein_goal
          max_items max_servings (rankedNames foods vegan allergen excluded_meats top_k)
          [tolerance, tolerance * 2, tolerance * 3]).2)) ∧
    (alts.length ≤ max_alternatives) ∧
    (∀ a ∈ alts, |a.total_protein - b.total_protein| ≤ protein_window) ∧
    (List.Sorted (fun x y : Sol => x.score ≤ y.score) (b :: alts)) ∧
    (((b :: alts).map _solution_signature).Nodup) := by
  obtain ⟨rest, hp, halts⟩ := suggest_meal_destruct h
  have hsorted := searchPool_sorted foods PAIRS close calorie_goal protein_goal tolerance
    max_items max_servings (rankedNames foods vegan allergen excluded_meats top_k)
  have hsub : List.Sublist alts rest := by
    rw [halts]
    exact collectAlts_sublist protein_window max_alternatives b.total_protein 0
      [_solution_signature b] rest
  refine ⟨?_, ⟨hp ▸ List.mem_cons_self _ _, ?_⟩, fun e he => dedupe_min e he,
    fun e he => dedupe_min e he, ?_, ?_, ?_, ?_, ?_, ?_, ?_⟩
  · intro s hs
    refine ⟨sig_sorted s, ?_, sig_mem s⟩
    have hmem : s ∈ b :: alts := hs
    obtain ⟨tol, _, hmem2⟩ := suggest_meal_origin h s hmem
    obtain ⟨combo, servings, hcs, hlen, _, _, rfl⟩ := of_mem_tierSols hmem2
    have hcombo_nd : combo.Nodup := (rankedNames_nodup hnd).sublist hcs
    have : ((mkSolution foods calorie_goal protein_goal tol combo servings).items.map
        Prod.fst).Nodup := by
      rw [mkSolution_names_eq hlen]
      exact hcombo_nd
    unfold _solution_signature
    exact ((List.perm_insertionSort _ _).nodup_iff).mpr this
  · intro s hs
    exact sorted_head_min (hp ▸ hsorted) s (hp ▸ hs)
  · unfold searchPool
    split
    · exact sortScore_sig_nodup _ (dedupe_sig_nodup _)
    · exact sortScore_sig_nodup _ (dedupe_sig_nodup _)
  · intro hne
    unfold searchPool
    rw [if_neg (by rw [List.isEmpty_iff]; exact hne)]
  · intro hni
    unfold searchPool
    rw [if_pos (by rw [List.isEmpty_iff]; exact hni)]
  · rw [halts]
    have := collectAlts_length protein_window max_alternatives b.total_protein 0
      [_solution_signature b] rest (by omega)
    omega
  · intro a ha
    exact collectAlts_window protein_window max_alternatives b.total_protein 0
      [_solution_signature b] rest a (halts ▸ ha)
  · have hps : List.Sorted (fun x y : Sol => x.score ≤ y.score) (b :: rest) :=
      hp ▸ hsorted
    exact List.Pairwise.sublist (List.Sublist.cons₂ b hsub) hps
  · obtain ⟨hfresh, hnd2⟩ := collectAlts_sig protein_window max_alternatives
      b.total_protein 0 [_solution_signature b] rest
    refine List.nodup_cons.mpr ⟨?_, halts ▸ hnd2⟩
    intro hmem
    obtain ⟨a, ha, hsig⟩ := List.mem_map.mp hmem
    exact hfresh a (halts ▸ ha) (hsig ▸ List.mem_cons_self _ _)

theorem claim_C7_witness :
    ([(⟨[("bravo", 1)], 200, 10, 0, 0, 0, 1 / 10, 0, true⟩ : Sol)]).length ≤ 5 ∧
    List.Sorted (fun x y : Sol => x.score ≤ y.score)
      ((⟨[("alpha", 1)], 200, 10, 0, 0, 0, 1 / 10, 0, true⟩ : Sol) ::
        [(⟨[("bravo", 1)], 200, 10, 0, 0, 0, 1 / 10, 0, true⟩ : Sol)]) := by
  obtain ⟨-, -, -, -, -, -, -, hlen, -, hsort, -⟩ :=
    claim_C7 [alphaF, bravoF] [] noClose 200 10 false none [] (1 / 10) 1 3 (1 / 2)
      10 10 5 ⟨[("alpha", 1)], 200, 10, 0, 0, 0, 1 / 10, 0, true⟩
      [⟨[("bravo", 1)], 200, 10, 0, 0, 0, 1 / 10, 0, true⟩]
      (by decide) (by with_unfolding_all decide) (by with_unfolding_all decide)
  exact ⟨hlen, hsort⟩

theorem claim_C10_witness :
    suggest_meal [tofuF] [] noClose 200 10 false none [] (1 / 10) 4 3 (1 / 2) 10 10 5 =
      suggest_meal [tofuF] [] noClose 200 10 false none [] (1 / 10) 4 3 (7 / 2) 10 10 5 ∧
    ((1 : ℚ) ∈ serving_values_for_item 3 tofuF ↔
      ∃ n : ℕ, 1 ≤ n ∧ n ≤ max_servings_for_item 3 tofuF ∧ (1 : ℚ) = (n : ℚ)) :=
  ⟨(claim_C10 [tofuF] [] noClose 200 10 false none [] (1 / 10) 4 3 (1 / 2) (7 / 2) 10 10
      5).1,
   (claim_C10 [tofuF] [] noClose 200 10 false none [] (1 / 10) 4 3 (1 / 2) (7 / 2) 10 10
      5).2.1 tofuF 1⟩

end ProteinPy
